
import Mathlib

/-!
# Verification of the map feature editor's geometric constraint engine

Shallow embedding of the drawing application's core:

* `polygonUtils` — `geometryToPolygon`, `doPolygonsOverlap`, `doesPolygonEnclose`,
  `trimPolygonOverlap`, `isPolygonType`, `getFeatureColor`;
* the zustand map store — features, drawing state, capacity configuration;
* the `useDrawing` hook — click/double-click/mouse-move handlers and the
  `finishDrawing` commit pipeline.

The Turf.js geometry library is an external collaborator consumed through a
narrow interface; it is modelled by a `GeoEnv` record of possibly-throwing
operations (`Except Unit` results model JavaScript exceptions).  The concrete
validation performed by `turf.polygon` is embedded exactly (ring length and
closure checks).  Coordinates are rationals; areas are rationals.
-/

deriving instance DecidableEq for Except

namespace MapEditor

/-- A GeoJSON position `[lng, lat]`. -/
abbrev Pos : Type := ℚ × ℚ

/-- A polygon linear ring: an ordered list of positions. -/
abbrev LinearRing : Type := List Pos

/-- The GeoJSON geometry values that occur in the application: polygons,
multi-polygons (from `turf.difference`), line strings and points. -/
inductive Geometry : Type where
  | polygon (coordinates : List LinearRing)
  | multiPolygon (coordinates : List (List LinearRing))
  | lineString (coordinates : List Pos)
  | point (coordinates : Pos)

deriving DecidableEq, Repr

/-- A Turf feature wrapping a geometry (properties are irrelevant to the core). -/
structure TFeature : Type where
  geometry : Geometry

deriving DecidableEq, Repr

/-- `turf.polygon` ring validation: a linear ring must have 4 or more
positions and its first and last positions must be equivalent. -/
def ringValid (r : LinearRing) : Bool :=
  decide (4 ≤ r.length) && (r.head? == r.getLast?)

/-- `turf.polygon` validation over all rings of a polygon. -/
def ringsOk (rs : List LinearRing) : Bool :=
  rs.all ringValid

/-- `turf.polygon(coordinates)`: validates every ring and wraps the
coordinates in a `Feature<Polygon>`; throws on an invalid ring. -/
def turfPolygon (coordinates : List LinearRing) : Except Unit TFeature :=
  if ringsOk coordinates then .ok ⟨.polygon coordinates⟩ else .error ()

/-- Leaflet `LatLng`. -/
structure LatLng : Type where
  lat : ℚ
  lng : ℚ

deriving DecidableEq, Repr

/-- The external geometry environment: the Turf.js operations consumed by the
core plus Leaflet's `distanceTo`.  Every Turf call may throw
(`Except Unit`). -/
structure GeoEnv : Type where
  /-- `turf.intersect(a, b)`: `null` (`none`) when the intersection is empty. -/
  intersect : TFeature → TFeature → Except Unit (Option TFeature)
  /-- `turf.booleanContains(outer, inner)`. -/
  booleanContains : TFeature → TFeature → Except Unit Bool
  /-- `turf.difference(a, b)`: `null` when the difference is empty. -/
  difference : TFeature → TFeature → Except Unit (Option TFeature)
  /-- `turf.area(f)`. -/
  area : TFeature → Except Unit ℚ
  /-- `turf.circle(center, radiusKm, { steps: 64, units: 'kilometers' })`. -/
  circle : Pos → ℚ → Except Unit TFeature
  /-- Leaflet `LatLng.distanceTo` (meters). -/
  distanceTo : LatLng → LatLng → ℚ

/-- The application's feature type tags. -/
inductive FeatureType : Type where
  | polygon
  | rectangle
  | circle
  | linestring

deriving DecidableEq, Repr

/-- `isPolygonType`: polygon types are subject to the overlap rules. -/
def isPolygonType : FeatureType → Bool
  | .polygon => true
  | .rectangle => true
  | .circle => true
  | .linestring => false

/-- `geometryToPolygon`: converts a GeoJSON geometry to a Turf polygon
feature; only `Polygon` geometries are supported, everything else yields
`null`.  The `turf.polygon` call may throw, and that exception propagates. -/
def geometryToPolygon : Geometry → Except Unit (Option TFeature)
  | .polygon cs => (turfPolygon cs).map some
  | _ => .ok none

/-- `doPolygonsOverlap(geom1, geom2)` from `polygonUtils`: converts both
inputs (conversion exceptions propagate), returns `false` when either is not
a polygon, otherwise tests `turf.intersect !== null` inside a
`try`/`catch` that downgrades exceptions to `false`. -/
def doPolygonsOverlap (env : GeoEnv) (geom1 geom2 : Geometry) :
    Except Unit Bool := do
  let poly1 ← geometryToPolygon geom1
  let poly2 ← geometryToPolygon geom2
  match poly1, poly2 with
  | some p1, some p2 =>
    match env.intersect p1 p2 with
    | .ok r => pure r.isSome
    | .error _ => pure false
  | _, _ => pure false

/-- `doesPolygonEnclose(geom1, geom2)` from `polygonUtils`: converts both
inputs (conversion exceptions propagate), returns `false` when either is not
a polygon, otherwise `turf.booleanContains(poly1, poly2)` inside a
`try`/`catch` that downgrades exceptions to `false`. -/
def doesPolygonEnclose (env : GeoEnv) (geom1 geom2 : Geometry) :
    Except Unit Bool := do
  let poly1 ← geometryToPolygon geom1
  let poly2 ← geometryToPolygon geom2
  match poly1, poly2 with
  | some p1, some p2 =>
    match env.booleanContains p1 p2 with
    | .ok b => pure b
    | .error _ => pure false
  | _, _ => pure false

/-- The minimal area accepted by `trimPolygonOverlap`: the source constant
`0.0001`, written as the rational `1 / 10000`. -/
def minTrimArea : ℚ := mkRat 1 10000

/-- The `Array.prototype.reduce` callback chain selecting the largest-area
part of a `MultiPolygon` difference result: `polyArea > maxArea ? poly : max`,
recomputing both areas with `turf.area` at every step. -/
def reduceLargest (env : GeoEnv) : TFeature → List TFeature → Except Unit TFeature
  | mx, [] => .ok mx
  | mx, p :: rest => do
    let maxArea ← env.area mx
    let polyArea ← env.area p
    reduceLargest env (if maxArea < polyArea then p else mx) rest

/-- The `multiPoly.geometry.coordinates.map((coords) => turf.polygon(coords))`
call: each `turf.polygon` may throw, aborting the whole map. -/
def mapPolygons : List (List LinearRing) → Except Unit (List TFeature)
  | [] => .ok []
  | cs :: rest => do
    let p ← turfPolygon cs
    let ps ← mapPolygons rest
    pure (p :: ps)

/-- One iteration of the `trimPolygonOverlap` loop body for a single existing
geometry: skip non-polygons, test `turf.intersect`, and on overlap subtract
with `turf.difference`, resolving `MultiPolygon` results by largest area and
treating an empty difference as failure (`none`). -/
def trimStep (env : GeoEnv) (currentPoly : TFeature) (existingGeom : Geometry) :
    Except Unit (Option TFeature) := do
  match ← geometryToPolygon existingGeom with
  | none => pure (some currentPoly)
  | some existingPoly =>
    match ← env.intersect currentPoly existingPoly with
    | some _ =>
      match ← env.difference currentPoly existingPoly with
      | some diff =>
        match diff.geometry with
        | .polygon _ => pure (some diff)
        | .multiPolygon css => do
          let polygons ← mapPolygons css
          match polygons with
          | [] => .error () -- `reduce` of an empty array throws a TypeError
          | p :: rest => do
            let largest ← reduceLargest env p rest
            pure (some largest)
        | _ => pure none
      | none => pure none
    | none => pure (some currentPoly)

/-- The `for … of existingGeometries` loop of `trimPolygonOverlap`;
a `none` from a step is the early `return null`. -/
def trimLoop (env : GeoEnv) : TFeature → List Geometry → Except Unit (Option TFeature)
  | cur, [] => pure (some cur)
  | cur, g :: rest => do
    match ← trimStep env cur g with
    | some cur2 => trimLoop env cur2 rest
    | none => pure none

/-- The body of the `try` block of `trimPolygonOverlap`: the subtraction loop
followed by the final area validation. -/
def trimBody (env : GeoEnv) (currentPoly : TFeature)
    (existingGeometries : List Geometry) : Except Unit (Option Geometry) := do
  match ← trimLoop env currentPoly existingGeometries with
  | none => pure none
  | some final => do
    let area ← env.area final
    if area < minTrimArea then pure none
    else pure (some final.geometry)

/-- `trimPolygonOverlap(newGeometry, existingGeometries)` from
`polygonUtils`: converts the candidate (conversion exceptions propagate since
this happens before the `try`), then runs the subtraction loop and final area
validation inside a `try`/`catch` that downgrades any exception to `null`. -/
def trimPolygonOverlap (env : GeoEnv) (newGeometry : Geometry)
    (existingGeometries : List Geometry) : Except Unit (Option Geometry) := do
  match ← geometryToPolygon newGeometry with
  | none => pure none
  | some currentPoly =>
    match trimBody env currentPoly existingGeometries with
    | .ok r => pure r
    | .error _ => pure none

/-- `getFeatureColor(type)`. -/
def getFeatureColor : FeatureType → String
  | .polygon => "#3b82f6"
  | .rectangle => "#10b981"
  | .circle => "#f59e0b"
  | .linestring => "#ef4444"

/-- A committed feature (`types.ts`): identity, type tag, geometry, and the
display color stored in `properties`. -/
structure Feature : Type where
  id : String
  type : FeatureType
  geometry : Geometry
  color : String

deriving DecidableEq, Repr

/-- `DrawingState` from `types.ts`. -/
structure DrawingState : Type where
  mode : Option FeatureType
  isDrawing : Bool

deriving DecidableEq, Repr

/-- The per-type capacity configuration (`Record<FeatureType, number>`). -/
structure MaxShapes : Type where
  polygon : ℕ
  rectangle : ℕ
  circle : ℕ
  linestring : ℕ

deriving DecidableEq, Repr

/-- `MAX_SHAPES_CONFIG` from `config.ts`. -/
def MAX_SHAPES_CONFIG : MaxShapes := ⟨10, 5, 5, 20⟩

/-- Point update of one entry of the capacity configuration. -/
def MaxShapes.setType (m : MaxShapes) : FeatureType → ℕ → MaxShapes
  | .polygon, n => { m with polygon := n }
  | .rectangle, n => { m with rectangle := n }
  | .circle, n => { m with circle := n }
  | .linestring, n => { m with linestring := n }

/-- The zustand `MapStore` state. -/
structure StoreState : Type where
  features : List Feature
  drawingState : DrawingState
  maxShapes : MaxShapes

deriving DecidableEq, Repr

/-- `initialDrawingState` from `mapStore.ts`. -/
def initialDrawingState : DrawingState := ⟨none, false⟩

/-- The store's creation-time state. -/
def initialStore : StoreState := ⟨[], initialDrawingState, MAX_SHAPES_CONFIG⟩

/-- Store action `addFeature`. -/
def addFeature (s : StoreState) (f : Feature) : StoreState :=
  { s with features := s.features ++ [f] }

/-- Store action `removeFeature`. -/
def removeFeature (s : StoreState) (id : String) : StoreState :=
  { s with features := s.features.filter fun f => f.id != id }

/-- Store action `setDrawingMode`. -/
def setDrawingMode (s : StoreState) (mode : Option FeatureType) : StoreState :=
  { s with drawingState := { s.drawingState with mode := mode } }

/-- Store action `setIsDrawing`. -/
def setIsDrawing (s : StoreState) (isDrawing : Bool) : StoreState :=
  { s with drawingState := { s.drawingState with isDrawing := isDrawing } }

/-- Store action `setMaxShapes`. -/
def setMaxShapes (s : StoreState) (t : FeatureType) (mx : ℕ) : StoreState :=
  { s with maxShapes := s.maxShapes.setType t mx }

/-- Store action `clearAllFeatures`. -/
def clearAllFeatures (s : StoreState) : StoreState :=
  { s with features := [], drawingState := initialDrawingState }

/-- Leaflet `LatLngBounds`. -/
structure Bounds : Type where
  south : ℚ
  north : ℚ
  west : ℚ
  east : ℚ

deriving DecidableEq, Repr

/-- `L.latLngBounds(a, b)`: the axis-aligned bounding box of two corners. -/
def latLngBounds (a b : LatLng) : Bounds :=
  ⟨min a.lat b.lat, max a.lat b.lat, min a.lng b.lng, max a.lng b.lng⟩

/-- The live provisional Leaflet layer held in `currentShapeRef` (for
polygon and polyline layers the geometry is rebuilt from
`polygonPointsRef`, so no layer data is needed). -/
inductive Layer : Type where
  | circle (center : LatLng) (radius : ℚ)
  | rectangle (bounds : Bounds)
  | polygon
  | polyline

deriving DecidableEq, Repr

/-- The hook's mutable refs: `currentShapeRef`, `startPointRef`,
`polygonPointsRef`. -/
structure SessionRefs : Type where
  currentShape : Option Layer
  startPoint : Option LatLng
  polygonPoints : List LatLng

deriving DecidableEq, Repr

/-- All refs cleared. -/
def emptyRefs : SessionRefs := ⟨none, none, []⟩

/-- The distinguishable rejection reasons surfaced through `alert(...)`. -/
inductive Alert : Type where
  | maxCircles
  | maxRectangles
  | maxPolygons
  | maxLineStrings
  | needThreePoints
  | needTwoPoints
  | wouldBeEnclosed
  | wouldEncloseExisting
  | invalidTrim

deriving DecidableEq, Repr

/-- The geometries of the committed polygon-type features, in collection
order (`finishDrawing` lines 351–353). -/
def polygonTypeGeometries (features : List Feature) : List Geometry :=
  (features.filter fun f => isPolygonType f.type).map fun f => f.geometry

/-- The full-enclosure loop of `finishDrawing` (lines 356–365): for each
existing geometry, first check whether it encloses the candidate, then
whether the candidate encloses it; the first hit rejects. -/
def enclosureScan (env : GeoEnv) (candidate : Geometry) :
    List Geometry → Except Unit (Option Alert)
  | [] => pure none
  | e :: rest => do
    if ← doesPolygonEnclose env e candidate then pure (some .wouldBeEnclosed)
    else if ← doesPolygonEnclose env candidate e then
      pure (some .wouldEncloseExisting)
    else enclosureScan env candidate rest

/-- The overlap-detection loop of `finishDrawing` (lines 368–374), with its
early `break` on the first overlap. -/
def hasOverlapScan (env : GeoEnv) (candidate : Geometry) :
    List Geometry → Except Unit Bool
  | [] => pure false
  | e :: rest => do
    if ← doPolygonsOverlap env candidate e then pure true
    else hasOverlapScan env candidate rest

/-- `finishDrawing` lines 347–396: the commit pipeline applied to a finalized
candidate geometry.  Polygon-type candidates run the enclosure checks, the
overlap check and, on overlap, the trim; line strings append directly.
Returns the new feature list and the rejection alert, if any. -/
def commitPipeline (env : GeoEnv) (newId : String) (ftype : FeatureType)
    (geometry : Geometry) (features : List Feature) :
    Except Unit (List Feature × Option Alert) := do
  if isPolygonType ftype then
    let existingPolygonGeometries := polygonTypeGeometries features
    match ← enclosureScan env geometry existingPolygonGeometries with
    | some a => pure (features, some a)
    | none => do
      let hasOverlap ← hasOverlapScan env geometry existingPolygonGeometries
      if hasOverlap then
        match ← trimPolygonOverlap env geometry existingPolygonGeometries with
        | none => pure (features, some .invalidTrim)
        | some trimmed =>
          pure (features ++ [⟨newId, ftype, trimmed, getFeatureColor ftype⟩],
            none)
      else
        pure (features ++ [⟨newId, ftype, geometry, getFeatureColor ftype⟩],
          none)
  else
    pure (features ++ [⟨newId, ftype, geometry, getFeatureColor ftype⟩], none)

/-- The tail of `finishDrawing` after the geometry has been computed: run the
commit pipeline; on rejection return early (store and refs untouched, alert
raised); on success append the feature and clear `currentShapeRef` and
`polygonPointsRef`. -/
def commitAndClear (env : GeoEnv) (newId : String) (s : StoreState)
    (r : SessionRefs) (ftype : FeatureType) (geometry : Geometry) :
    Except Unit (StoreState × SessionRefs × Option Alert) := do
  match ← commitPipeline env newId ftype geometry s.features with
  | (_, some a) => pure (s, r, some a)
  | (features2, none) =>
    pure ({ s with features := features2 },
      { r with currentShape := none, polygonPoints := [] }, none)

/-- `finishDrawing(type, layer)` (lines 296–403): build the final geometry
from the provisional layer — circles through `turf.circle` with the radius
converted to kilometers, rectangles as the closed 5-point ring of their
bounds, polygons by closing the accumulated point ring, line strings from
the accumulated points — then run the commit pipeline. -/
def finishDrawing (env : GeoEnv) (newId : String) (s : StoreState)
    (r : SessionRefs) (ftype : FeatureType) (layer : Layer) :
    Except Unit (StoreState × SessionRefs × Option Alert) := do
  match layer with
  | .circle center radius => do
    let circlePolygon ← env.circle (center.lng, center.lat) (radius / 1000)
    commitAndClear env newId s r ftype circlePolygon.geometry
  | .rectangle bounds =>
    let coords : LinearRing :=
      [(bounds.west, bounds.south), (bounds.east, bounds.south),
        (bounds.east, bounds.north), (bounds.west, bounds.north),
        (bounds.west, bounds.south)]
    commitAndClear env newId s r ftype (.polygon [coords])
  | .polygon =>
    if r.polygonPoints.length < 3 then pure (s, r, some .needThreePoints)
    else
      let coords := r.polygonPoints.map fun ll => (ll.lng, ll.lat)
      -- `coords.push(coords[0])`: close the ring (`coords` is non-empty here)
      commitAndClear env newId s r ftype (.polygon [coords ++ coords.take 1])
  | .polyline =>
    if r.polygonPoints.length < 2 then pure (s, r, some .needTwoPoints)
    else
      commitAndClear env newId s r ftype
        (.lineString (r.polygonPoints.map fun ll => (ll.lng, ll.lat)))

/-- `handleCircleClick(latlng, isDrawing)` (lines 133–169). -/
def handleCircleClick (env : GeoEnv) (newId : String) (s : StoreState)
    (r : SessionRefs) (latlng : LatLng) (isDrawing : Bool) :
    Except Unit (StoreState × SessionRefs × Option Alert) :=
  if isDrawing then
    match r.currentShape with
    | some (.circle center radius) => do
      let (s2, r2, a) ← finishDrawing env newId s r .circle (.circle center radius)
      pure (setIsDrawing s2 false, r2, a)
    | _ => pure (setIsDrawing s false, r, none)
  else
    let circleCount := (s.features.filter fun f => f.type == .circle).length
    if s.maxShapes.circle ≤ circleCount then pure (s, r, some .maxCircles)
    else
      pure (setIsDrawing s true,
        { r with startPoint := some latlng,
                 currentShape := some (.circle latlng 0) }, none)

/-- `handleRectangleClick(latlng, isDrawing)` (lines 171–208). -/
def handleRectangleClick (env : GeoEnv) (newId : String) (s : StoreState)
    (r : SessionRefs) (latlng : LatLng) (isDrawing : Bool) :
    Except Unit (StoreState × SessionRefs × Option Alert) :=
  if isDrawing then
    match r.currentShape with
    | some (.rectangle bounds) => do
      let (s2, r2, a) ← finishDrawing env newId s r .rectangle (.rectangle bounds)
      pure (setIsDrawing s2 false, r2, a)
    | _ => pure (setIsDrawing s false, r, none)
  else
    let rectangleCount := (s.features.filter fun f => f.type == .rectangle).length
    if s.maxShapes.rectangle ≤ rectangleCount then pure (s, r, some .maxRectangles)
    else
      pure (setIsDrawing s true,
        { r with startPoint := some latlng,
                 currentShape := some (.rectangle (latLngBounds latlng latlng)) },
        none)

/-- `handlePolygonClick(latlng, isDrawing)` (lines 210–243): the capacity
gate for the polygon limit counts ALL polygon-type features. -/
def handlePolygonClick (s : StoreState) (r : SessionRefs) (latlng : LatLng)
    (isDrawing : Bool) : StoreState × SessionRefs × Option Alert :=
  if !isDrawing then
    let polygonCount := (s.features.filter fun f => isPolygonType f.type).length
    if s.maxShapes.polygon ≤ polygonCount then (s, r, some .maxPolygons)
    else
      (setIsDrawing s true,
        { r with polygonPoints := [latlng], currentShape := some .polygon },
        none)
  else
    (s, { r with polygonPoints := r.polygonPoints ++ [latlng] }, none)

/-- `handleLineStringClick(latlng, isDrawing)` (lines 245–277). -/
def handleLineStringClick (s : StoreState) (r : SessionRefs) (latlng : LatLng)
    (isDrawing : Bool) : StoreState × SessionRefs × Option Alert :=
  if !isDrawing then
    let lineCount := (s.features.filter fun f => f.type == .linestring).length
    if s.maxShapes.linestring ≤ lineCount then (s, r, some .maxLineStrings)
    else
      (setIsDrawing s true,
        { r with polygonPoints := [latlng], currentShape := some .polyline },
        none)
  else
    (s, { r with polygonPoints := r.polygonPoints ++ [latlng] }, none)

/-- `finishPolygonOrLineString(type)` (lines 279–294): the finish signal;
too few accumulated points rejects and keeps the session active. -/
def finishPolygonOrLineString (env : GeoEnv) (newId : String) (s : StoreState)
    (r : SessionRefs) (ftype : FeatureType) :
    Except Unit (StoreState × SessionRefs × Option Alert) :=
  match r.currentShape with
  | none => pure (s, r, none)
  | some layer =>
    if ftype == .polygon && decide (r.polygonPoints.length < 3) then
      pure (s, r, some .needThreePoints)
    else if ftype == .linestring && decide (r.polygonPoints.length < 2) then
      pure (s, r, some .needTwoPoints)
    else do
      let (s2, r2, a) ← finishDrawing env newId s r ftype layer
      pure (setIsDrawing s2 false, r2, a)

/-- `handleMapClick` (lines 65–82): dispatch a click by the current mode. -/
def handleMapClick (env : GeoEnv) (newId : String) (s : StoreState)
    (r : SessionRefs) (latlng : LatLng) :
    Except Unit (StoreState × SessionRefs × Option Alert) :=
  match s.drawingState.mode with
  | none => pure (s, r, none)
  | some .circle => handleCircleClick env newId s r latlng s.drawingState.isDrawing
  | some .rectangle => handleRectangleClick env newId s r latlng s.drawingState.isDrawing
  | some .polygon => pure (handlePolygonClick s r latlng s.drawingState.isDrawing)
  | some .linestring => pure (handleLineStringClick s r latlng s.drawingState.isDrawing)

/-- `handleMapDoubleClick` (lines 84–93): finish signal for polygon and
line-string sessions. -/
def handleMapDoubleClick (env : GeoEnv) (newId : String) (s : StoreState)
    (r : SessionRefs) : Except Unit (StoreState × SessionRefs × Option Alert) :=
  match s.drawingState.mode, s.drawingState.isDrawing with
  | some .polygon, true => finishPolygonOrLineString env newId s r .polygon
  | some .linestring, true => finishPolygonOrLineString env newId s r .linestring
  | _, _ => pure (s, r, none)

/-- `handleMapMouseMove` (lines 95–120): while actively drawing a circle or
rectangle, resize the provisional shape from the anchor point; polygon and
line-string moves only redraw the Leaflet preview layer. -/
def handleMapMouseMove (env : GeoEnv) (s : StoreState) (r : SessionRefs)
    (latlng : LatLng) : SessionRefs :=
  match s.drawingState.mode, s.drawingState.isDrawing, r.startPoint with
  | some m, true, some start =>
    match m, r.currentShape with
    | .circle, some (.circle center _) =>
      { r with currentShape := some (.circle center (env.distanceTo start latlng)) }
    | .rectangle, some (.rectangle _) =>
      { r with currentShape := some (.rectangle (latLngBounds start latlng)) }
    | _, _ => r
  | _, _, _ => r

/-- The `useEffect` body that runs whenever the drawing mode changes
(lines 42–63): the provisional layer is removed, all session refs are
cleared and the is-drawing flag is reset; committed features are untouched. -/
def modeChangeCleanup (s : StoreState) : StoreState × SessionRefs :=
  (setIsDrawing s false, emptyRefs)

/-- A mode change: `setDrawingMode` followed by the mode-change effect. -/
def changeMode (s : StoreState) (m : Option FeatureType) :
    StoreState × SessionRefs :=
  modeChangeCleanup (setDrawingMode s m)

/-- The states reachable through the application's event handlers starting
from the initial store: map clicks (with a fresh feature id for a potential
commit), double clicks, mouse moves, mode changes, and the remaining store
actions.  A handler invocation that throws leaves the state unchanged (no
store mutation precedes the throwing call), so only `.ok` steps produce new
states. -/
inductive Reach (env : GeoEnv) : StoreState → SessionRefs → Prop where
  | init : Reach env initialStore emptyRefs
  | click (newId : String) (latlng : LatLng) {s r s2 r2 a} :
      Reach env s r → handleMapClick env newId s r latlng = .ok (s2, r2, a) →
      Reach env s2 r2
  | dblclick (newId : String) {s r s2 r2 a} :
      Reach env s r → handleMapDoubleClick env newId s r = .ok (s2, r2, a) →
      Reach env s2 r2
  | mousemove (latlng : LatLng) {s r} :
      Reach env s r → Reach env s (handleMapMouseMove env s r latlng)
  | modeChange (m : Option FeatureType) {s r} :
      Reach env s r → Reach env (changeMode s m).1 (changeMode s m).2
  | removeF (id : String) {s r} :
      Reach env s r → Reach env (removeFeature s id) r
  | clearF {s r} :
      Reach env s r →
      Reach env (clearAllFeatures s)
        (if s.drawingState.mode = none then r else emptyRefs)
  | setMax (t : FeatureType) (n : ℕ) {s r} :
      Reach env s r → Reach env (setMaxShapes s t n) r

/-! ## Specification-side notions -/

/-- A geometry accepted by `turf.polygon` validation: a `Polygon` whose rings
all have at least four positions and are closed. -/
def GoodGeom (g : Geometry) : Prop :=
  ∃ css, g = Geometry.polygon css ∧ ringsOk css = true

instance (g : Geometry) : Decidable (GoodGeom g) := by
  unfold GoodGeom
  match g with
  | .polygon css =>
    refine if h : ringsOk css = true then .isTrue ⟨css, rfl, h⟩ else .isFalse ?_
    rintro ⟨css2, heq, hok⟩
    cases heq
    exact h hok
  | .multiPolygon _ => exact .isFalse (by rintro ⟨_, h, _⟩; cases h)
  | .lineString _ => exact .isFalse (by rintro ⟨_, h, _⟩; cases h)
  | .point _ => exact .isFalse (by rintro ⟨_, h, _⟩; cases h)

/-- Soundness of the external geometry library with respect to a
set-of-points denotation `den` of geometries — `den g` is the open region
covered by `g`, so boundary-only contact contributes nothing.  These are the
§6 contract guarantees the core relies on. -/
structure GeomSound (env : GeoEnv) : Type where
  /-- The region denoted by a geometry. -/
  den : Geometry → Set Pos
  /-- `turf.intersect` succeeds on validated polygon features. -/
  intersect_ok : ∀ a b : TFeature, GoodGeom a.geometry → GoodGeom b.geometry →
    ∃ r, env.intersect a b = .ok r
  /-- A successful `turf.intersect` is non-null exactly when the two regions
  share points. -/
  intersect_sound : ∀ a b r, env.intersect a b = .ok r →
    (r.isSome ↔ (den a.geometry ∩ den b.geometry).Nonempty)
  /-- A successful non-null `turf.difference` denotes the set difference. -/
  difference_sound : ∀ a b d, env.difference a b = .ok (some d) →
    den d.geometry = den a.geometry \ den b.geometry
  /-- A `Polygon` result of `turf.difference` passes ring validation. -/
  difference_wf : ∀ a b d css, env.difference a b = .ok (some d) →
    d.geometry = .polygon css → ringsOk css = true
  /-- Each part of a `MultiPolygon` denotes a subset of the whole. -/
  multiPart_sub : ∀ css cs, cs ∈ css →
    den (Geometry.polygon cs) ⊆ den (Geometry.multiPolygon css)
  /-- `turf.circle` produces a validated polygon ring. -/
  circle_wf : ∀ c rad f, env.circle c rad = .ok f → GoodGeom f.geometry

/-! ## Invariant predicates and concrete witness data -/

/-- Well-formedness of a committed feature: polygon-type features carry
validated polygon rings, linestring features carry a line string with at
least two points. -/
def FeatureWF (f : Feature) : Prop :=
  (isPolygonType f.type = true → GoodGeom f.geometry) ∧
  (f.type = .linestring → ∃ ps, f.geometry = .lineString ps ∧ 2 ≤ ps.length)

/-- Pairwise region-disjointness of the polygon-type features of a list. -/
def DisjointFeatures (den : Geometry → Set Pos) (l : List Feature) : Prop :=
  l.Pairwise fun f g =>
    isPolygonType f.type = true → isPolygonType g.type = true →
    den f.geometry ∩ den g.geometry = ∅

/-- The provisional layer kind created for each drawing mode. -/
def layerMatches : FeatureType → Layer → Prop
  | .circle, .circle _ _ => True
  | .rectangle, .rectangle _ => True
  | .polygon, .polygon => True
  | .linestring, .polyline => True
  | _, _ => False

/-- The provisional shape always belongs to the currently selected mode. -/
def ShapeInv (s : StoreState) (r : SessionRefs) : Prop :=
  ∀ l, r.currentShape = some l →
    ∃ m, s.drawingState.mode = some m ∧ layerMatches m l

/-- The inductive store invariant. -/
def StoreInv (den : Geometry → Set Pos) (s : StoreState) (r : SessionRefs) :
    Prop :=
  (∀ f ∈ s.features, FeatureWF f) ∧ DisjointFeatures den s.features ∧
    ShapeInv s r

/-- A concrete geometry environment: every intersection is empty, nothing
contains anything, differences are empty, areas are zero, circles come out as
a degenerate validated square ring, distances are zero. -/
def trivEnv : GeoEnv where
  intersect := fun _ _ => .ok none
  booleanContains := fun _ _ => .ok false
  difference := fun _ _ => .ok none
  area := fun _ => .ok 0
  circle := fun c _ => .ok ⟨.polygon [[c, c, c, c]]⟩
  distanceTo := fun _ _ => 0

/-- `trivEnv` is sound for the empty denotation. -/
def trivSound : GeomSound trivEnv where
  den := fun _ => ∅
  intersect_ok := fun _ _ _ _ => ⟨none, rfl⟩
  intersect_sound := by
    intro a b rr hr
    simp only [trivEnv, Except.ok.injEq] at hr
    subst hr
    simp
  difference_sound := by
    intro a b d h
    simp [trivEnv] at h
  difference_wf := by
    intro a b d css h
    simp [trivEnv] at h
  multiPart_sub := by
    intro css cs hm
    exact fun x hx => hx
  circle_wf := by
    intro c rad f h
    simp only [trivEnv, Except.ok.injEq] at h
    subst h
    refine ⟨[[c, c, c, c]], rfl, ?_⟩
    simp only [ringsOk, List.all_cons, List.all_nil, Bool.and_true]
    unfold ringValid
    rw [Bool.and_eq_true]
    refine ⟨by simp, ?_⟩
    have hlast : ([c, c, c, c] : LinearRing).getLast? = some c := by
      simp [List.getLast?]
    rw [hlast]
    simp

/-- First committed triangle of the witness run. -/
def wP1 : Feature :=
  ⟨"f1", .polygon, .polygon [[(0, 0), (1, 0), (1, 1), (0, 0)]], "#3b82f6"⟩

/-- Second committed triangle of the witness run. -/
def wP2 : Feature :=
  ⟨"f2", .polygon, .polygon [[(10, 10), (11, 10), (11, 11), (10, 10)]], "#3b82f6"⟩

/-- The store after the witness run committed both triangles. -/
def wStore : StoreState :=
  ⟨[wP1, wP2], ⟨some FeatureType.polygon, false⟩, MAX_SHAPES_CONFIG⟩

/-- A geometry environment that reports every containment as true. -/
def encloseEnv : GeoEnv := { trivEnv with booleanContains := fun _ _ => .ok true }

/-- Pure specification of the largest-part `reduce`: fold the parts keeping
the running maximum, replacing it only on strictly larger area. -/
def selectLargest (A : TFeature → ℚ) : TFeature → List TFeature → TFeature
  | mx, [] => mx
  | mx, q :: rest => selectLargest A (if A mx < A q then q else mx) rest

/-- A degenerate first part of the witness difference result. -/
def wPart1 : List LinearRing := [[(0, 0), (0, 0), (0, 0), (0, 0)]]

/-- The larger second part of the witness difference result. -/
def wPart2 : List LinearRing := [[(5, 5), (5, 5), (5, 5), (5, 5)]]

/-- An environment whose difference returns a two-part MultiPolygon with the
second part larger. -/
def multiEnv : GeoEnv :=
  { trivEnv with
    intersect := fun _ _ => .ok (some ⟨.polygon []⟩)
    difference := fun _ _ => .ok (some ⟨.multiPolygon [wPart1, wPart2]⟩)
    area := fun f => .ok (if f.geometry = .polygon wPart2 then 5 else 1) }

/-- A committed circle-type feature used by the C6 witness. -/
def wC : Feature := ⟨"c0", .circle, wP1.geometry, "#f59e0b"⟩

/-- A committed rectangle-type feature used by the C6 witness. -/
def wRect : Feature := ⟨"r0", .rectangle, wP2.geometry, "#10b981"⟩

/-! ## Basic lemmas about the adapter -/

theorem turfPolygon_ok {css : List LinearRing} {f : TFeature}
    (h : turfPolygon css = .ok f) :
    f = ⟨.polygon css⟩ ∧ ringsOk css = true := by
  unfold turfPolygon at h
  split at h
  · exact ⟨(Except.ok.injEq _ _ ▸ h).symm ▸ rfl, by assumption⟩
  · exact absurd h (by simp)

theorem turfPolygon_of_ok {css : List LinearRing} (h : ringsOk css = true) :
    turfPolygon css = .ok ⟨.polygon css⟩ := by
  unfold turfPolygon
  simp [h]

/-- Unfolding equation for the `Polygon` case of the adapter. -/
theorem geometryToPolygon_polygon (css : List LinearRing) :
    geometryToPolygon (.polygon css) = Except.map some (turfPolygon css) := rfl

/-- Conversion of a validated polygon geometry succeeds and returns a feature
wrapping that very geometry. -/
theorem geometryToPolygon_good {g : Geometry} (h : GoodGeom g) :
    geometryToPolygon g = .ok (some ⟨g⟩) := by
  obtain ⟨css, rfl, hok⟩ := h
  rw [geometryToPolygon_polygon, turfPolygon_of_ok hok]
  rfl

/-- A successful, non-null conversion only happens on validated polygon
geometries and wraps the input geometry itself. -/
theorem geometryToPolygon_some {g : Geometry} {p : TFeature}
    (h : geometryToPolygon g = .ok (some p)) :
    p.geometry = g ∧ GoodGeom g := by
  match g with
  | .polygon css =>
    rw [geometryToPolygon_polygon] at h
    cases htp : turfPolygon css with
    | ok f =>
      obtain ⟨rfl, hok⟩ := turfPolygon_ok htp
      rw [htp] at h
      cases h
      exact ⟨rfl, css, rfl, hok⟩
    | error e =>
      rw [htp] at h
      cases h
  | .multiPolygon css => cases h
  | .lineString ps => cases h
  | .point p0 => cases h

/-- Conversion never returns `.ok none` on a `Polygon` geometry. -/
theorem geometryToPolygon_none {g : Geometry}
    (h : geometryToPolygon g = .ok none) :
    ∀ css, g ≠ .polygon css := by
  intro css hg
  subst hg
  rw [geometryToPolygon_polygon] at h
  cases htp : turfPolygon css <;> rw [htp] at h <;> cases h

/-! ## Lemmas about the overlap predicates -/

@[simp] theorem ok_bind {ε α β : Type} (a : α) (f : α → Except ε β) :
    (Except.ok a : Except ε α) >>= f = f a := rfl

@[simp] theorem error_bind {ε α β : Type} (e : ε) (f : α → Except ε β) :
    (Except.error e : Except ε α) >>= f = Except.error e := rfl

@[simp] theorem pure_eq_ok {ε α : Type} (a : α) :
    (pure a : Except ε α) = Except.ok a := rfl

theorem ok_ne_error {ε α : Type} (a : α) (e : ε) :
    (Except.ok a : Except ε α) ≠ Except.error e := by
  intro h
  cases h

/-- On two validated polygon geometries, `doPolygonsOverlap` reduces to the
guarded `turf.intersect` call. -/
theorem doPolygonsOverlap_good {env : GeoEnv} {g1 g2 : Geometry}
    (h1 : GoodGeom g1) (h2 : GoodGeom g2) :
    doPolygonsOverlap env g1 g2 =
      match env.intersect ⟨g1⟩ ⟨g2⟩ with
      | .ok r => .ok r.isSome
      | .error _ => .ok false := by
  unfold doPolygonsOverlap
  rw [geometryToPolygon_good h1, geometryToPolygon_good h2]
  rfl

/-- Region-disjoint validated polygons are reported as non-overlapping. -/
theorem doPolygonsOverlap_of_disjoint {env : GeoEnv} (gs : GeomSound env)
    {g1 g2 : Geometry} (h1 : GoodGeom g1) (h2 : GoodGeom g2)
    (hd : gs.den g1 ∩ gs.den g2 = ∅) :
    doPolygonsOverlap env g1 g2 = .ok false := by
  rw [doPolygonsOverlap_good h1 h2]
  obtain ⟨r, hr⟩ := gs.intersect_ok ⟨g1⟩ ⟨g2⟩ h1 h2
  rw [hr]
  have hs := gs.intersect_sound ⟨g1⟩ ⟨g2⟩ r hr
  cases r with
  | none => rfl
  | some x =>
    exfalso
    have hne : (gs.den g1 ∩ gs.den g2).Nonempty := hs.mp rfl
    rw [hd] at hne
    exact Set.not_nonempty_empty hne

/-- A `false` verdict on two validated polygons means the regions are
disjoint. -/
theorem doPolygonsOverlap_false_disjoint {env : GeoEnv} (gs : GeomSound env)
    {g1 g2 : Geometry} (h1 : GoodGeom g1) (h2 : GoodGeom g2)
    (hov : doPolygonsOverlap env g1 g2 = .ok false) :
    gs.den g1 ∩ gs.den g2 = ∅ := by
  obtain ⟨r, hr⟩ := gs.intersect_ok ⟨g1⟩ ⟨g2⟩ h1 h2
  rw [doPolygonsOverlap_good h1 h2, hr] at hov
  have hs := gs.intersect_sound ⟨g1⟩ ⟨g2⟩ r hr
  cases r with
  | some x => simp at hov
  | none =>
    by_contra hne
    have : ((none : Option TFeature).isSome : Bool) = true :=
      hs.mpr (Set.nonempty_iff_ne_empty.mpr hne)
    cases this

/-- If the overlap-detection loop found no overlap, every existing geometry
individually reported no overlap. -/
theorem hasOverlapScan_false {env : GeoEnv} {g : Geometry} {l : List Geometry}
    (h : hasOverlapScan env g l = .ok false) :
    ∀ e ∈ l, doPolygonsOverlap env g e = .ok false := by
  induction l with
  | nil => intro e he; cases he
  | cons e0 rest ih =>
    intro e he
    simp only [hasOverlapScan] at h
    cases hov : doPolygonsOverlap env g e0 with
    | error u => rw [hov] at h; simp at h
    | ok b =>
      rw [hov] at h
      cases b with
      | true => simp at h
      | false =>
        rcases List.mem_cons.mp he with rfl | he2
        · exact hov
        · exact ih (by simpa using h) e he2

/-! ## Lemmas about the trim engine -/

/-- Every feature produced by the multi-part map is a validated polygon
feature built from one of the parts. -/
theorem mapPolygons_ok : ∀ {css : List (List LinearRing)} {ps : List TFeature},
    mapPolygons css = .ok ps →
    ∀ p ∈ ps, ∃ cs ∈ css, p = ⟨.polygon cs⟩ ∧ ringsOk cs = true := by
  intro css
  induction css with
  | nil =>
    intro ps h p hp
    simp only [mapPolygons] at h
    cases h
    cases hp
  | cons cs rest ih =>
    intro ps h p hp
    simp only [mapPolygons] at h
    cases htp : turfPolygon cs with
    | error e => rw [htp] at h; simp at h
    | ok f =>
      rw [htp] at h
      cases hrest : mapPolygons rest with
      | error e => rw [hrest] at h; simp at h
      | ok fs =>
        rw [hrest] at h
        simp only [ok_bind, pure_eq_ok, Except.ok.injEq] at h
        subst h
        obtain ⟨rfl, hok⟩ := turfPolygon_ok htp
        rcases List.mem_cons.mp hp with rfl | hp2
        · exact ⟨cs, List.mem_cons_self cs rest, rfl, hok⟩
        · obtain ⟨cs2, hcs2, rfl, hok2⟩ := ih hrest p hp2
          exact ⟨cs2, List.mem_cons_of_mem cs hcs2, rfl, hok2⟩

/-- The largest-part `reduce` returns either its seed or a list element. -/
theorem reduceLargest_mem {env : GeoEnv} :
    ∀ {l : List TFeature} {mx res : TFeature},
    reduceLargest env mx l = .ok res → res = mx ∨ res ∈ l := by
  intro l
  induction l with
  | nil =>
    intro mx res h
    simp only [reduceLargest] at h
    cases h
    exact .inl rfl
  | cons p rest ih =>
    intro mx res h
    simp only [reduceLargest] at h
    cases ha1 : env.area mx with
    | error e => rw [ha1] at h; simp at h
    | ok a1 =>
      rw [ha1] at h
      cases ha2 : env.area p with
      | error e => rw [ha2] at h; simp at h
      | ok a2 =>
        rw [ha2] at h
        simp only [ok_bind] at h
        rcases ih h with hres | hres
        · by_cases hlt : a1 < a2
          · rw [if_pos hlt] at hres
            exact .inr (hres ▸ List.mem_cons_self p rest)
          · rw [if_neg hlt] at hres
            exact .inl hres
        · exact .inr (List.mem_cons_of_mem p hres)

/-- One trim-loop step, on a successful non-consuming outcome: the running
polygon stays validated, its region only shrinks, and it becomes disjoint
from the processed existing geometry (when that geometry is a validated
polygon). -/
theorem trimStep_sound {env : GeoEnv} (gs : GeomSound env)
    {cur cur2 : TFeature} {e : Geometry}
    (hstep : trimStep env cur e = .ok (some cur2))
    (hcur : GoodGeom cur.geometry) :
    GoodGeom cur2.geometry ∧
      gs.den cur2.geometry ⊆ gs.den cur.geometry ∧
      (GoodGeom e → gs.den cur2.geometry ∩ gs.den e = ∅) := by
  simp only [trimStep] at hstep
  cases hge : geometryToPolygon e with
  | error u => rw [hge] at hstep; simp at hstep
  | ok o =>
    rw [hge] at hstep
    simp only [ok_bind] at hstep
    cases o with
    | none =>
      simp only [pure_eq_ok, Except.ok.injEq, Option.some.injEq] at hstep
      subst hstep
      refine ⟨hcur, le_refl _, fun hge2 => ?_⟩
      rw [geometryToPolygon_good hge2] at hge
      cases hge
    | some ep =>
      obtain ⟨hepg, hegood⟩ := geometryToPolygon_some hge
      simp only [] at hstep
      cases hi : env.intersect cur ep with
      | error u => rw [hi] at hstep; simp at hstep
      | ok io =>
        rw [hi] at hstep
        simp only [ok_bind] at hstep
        cases io with
        | none =>
          simp only [pure_eq_ok, Except.ok.injEq, Option.some.injEq] at hstep
          subst hstep
          refine ⟨hcur, le_refl _, fun _ => ?_⟩
          have hs := gs.intersect_sound cur ep none hi
          have hnon : ¬ (gs.den cur.geometry ∩ gs.den ep.geometry).Nonempty := by
            intro hne
            have : ((none : Option TFeature).isSome : Bool) = true := hs.mpr hne
            cases this
          rw [hepg] at hnon
          exact Set.not_nonempty_iff_eq_empty.mp hnon
        | some x =>
          simp only [] at hstep
          cases hd : env.difference cur ep with
          | error u => rw [hd] at hstep; simp at hstep
          | ok do2 =>
            rw [hd] at hstep
            simp only [ok_bind] at hstep
            cases do2 with
            | none => simp at hstep
            | some diff =>
              simp only [] at hstep
              have hden : gs.den diff.geometry =
                  gs.den cur.geometry \ gs.den e := by
                rw [← hepg]
                exact gs.difference_sound cur ep diff hd
              cases hdg : diff.geometry with
              | polygon css =>
                rw [hdg] at hstep
                simp only [pure_eq_ok, Except.ok.injEq, Option.some.injEq] at hstep
                subst hstep
                have hwf := gs.difference_wf cur ep diff css hd hdg
                refine ⟨⟨css, hdg, hwf⟩, ?_, fun _ => ?_⟩
                · rw [hden]
                  exact Set.diff_subset
                · rw [hden]
                  exact Set.diff_inter_self
              | multiPolygon css =>
                rw [hdg] at hstep
                simp only [] at hstep
                cases hmp : mapPolygons css with
                | error u => rw [hmp] at hstep; simp at hstep
                | ok ps =>
                  rw [hmp] at hstep
                  simp only [ok_bind] at hstep
                  cases ps with
                  | nil => simp at hstep
                  | cons p rest =>
                    simp only [] at hstep
                    cases hrl : reduceLargest env p rest with
                    | error u => rw [hrl] at hstep; simp at hstep
                    | ok largest =>
                      rw [hrl] at hstep
                      simp only [ok_bind, pure_eq_ok, Except.ok.injEq,
                        Option.some.injEq] at hstep
                      subst hstep
                      have hmem : largest = p ∨ largest ∈ rest := reduceLargest_mem hrl
                      have hmem2 : largest ∈ p :: rest := by
                        rcases hmem with rfl | hm
                        · exact List.mem_cons_self _ _
                        · exact List.mem_cons_of_mem _ hm
                      obtain ⟨cs, hcs, rfl, hok⟩ := mapPolygons_ok hmp largest hmem2
                      have hsub : gs.den (Geometry.polygon cs) ⊆
                          gs.den (Geometry.multiPolygon css) :=
                        gs.multiPart_sub css cs hcs
                      rw [← hdg, hden] at hsub
                      refine ⟨⟨cs, rfl, hok⟩, ?_, fun _ => ?_⟩
                      · exact hsub.trans Set.diff_subset
                      · have : gs.den (TFeature.mk (Geometry.polygon cs)).geometry ∩ gs.den e ⊆
                            (gs.den cur.geometry \ gs.den e) ∩ gs.den e :=
                          Set.inter_subset_inter_left _ hsub
                        rw [Set.diff_inter_self] at this
                        exact Set.subset_empty_iff.mp this
              | lineString ps => rw [hdg] at hstep; simp at hstep
              | point p0 => rw [hdg] at hstep; simp at hstep

/-- The trim loop, on success: the final polygon is validated, its region is
inside the candidate's, and it is disjoint from every validated existing
polygon geometry in the list. -/
theorem trimLoop_sound {env : GeoEnv} (gs : GeomSound env) :
    ∀ {l : List Geometry} {cur fin : TFeature},
    trimLoop env cur l = .ok (some fin) → GoodGeom cur.geometry →
    GoodGeom fin.geometry ∧
      gs.den fin.geometry ⊆ gs.den cur.geometry ∧
      ∀ e ∈ l, GoodGeom e → gs.den fin.geometry ∩ gs.den e = ∅ := by
  intro l
  induction l with
  | nil =>
    intro cur fin h hcur
    simp only [trimLoop, pure_eq_ok, Except.ok.injEq, Option.some.injEq] at h
    subst h
    exact ⟨hcur, le_refl _, fun e he => absurd he (List.not_mem_nil e)⟩
  | cons g rest ih =>
    intro cur fin h hcur
    simp only [trimLoop] at h
    cases hstep : trimStep env cur g with
    | error u => rw [hstep] at h; simp at h
    | ok o =>
      rw [hstep] at h
      simp only [ok_bind] at h
      cases o with
      | none => simp at h
      | some cur2 =>
        simp only [] at h
        obtain ⟨hgood2, hsub2, hdisj2⟩ := trimStep_sound gs hstep hcur
        obtain ⟨hgoodf, hsubf, hdisjf⟩ := ih h hgood2
        refine ⟨hgoodf, hsubf.trans hsub2, fun e he hge => ?_⟩
        rcases List.mem_cons.mp he with rfl | he2
        · have hd2 := hdisj2 hge
          have : gs.den fin.geometry ∩ gs.den e ⊆
              gs.den cur2.geometry ∩ gs.den e :=
            Set.inter_subset_inter_left _ hsubf
          rw [hd2] at this
          exact Set.subset_empty_iff.mp this
        · exact hdisjf e he2 hge

/-- `trimPolygonOverlap`, on success: the input was a validated polygon, the
output geometry is a validated polygon, and its region is disjoint from every
validated existing polygon geometry. -/
theorem trimPolygonOverlap_sound {env : GeoEnv} (gs : GeomSound env)
    {g tg : Geometry} {l : List Geometry}
    (h : trimPolygonOverlap env g l = .ok (some tg)) :
    GoodGeom g ∧ GoodGeom tg ∧
      gs.den tg ⊆ gs.den g ∧
      ∀ e ∈ l, GoodGeom e → gs.den tg ∩ gs.den e = ∅ := by
  simp only [trimPolygonOverlap] at h
  cases hconv : geometryToPolygon g with
  | error u => rw [hconv] at h; simp at h
  | ok o =>
    rw [hconv] at h
    simp only [ok_bind] at h
    cases o with
    | none => simp at h
    | some cp =>
      obtain ⟨hcpg, hggood⟩ := geometryToPolygon_some hconv
      simp only [] at h
      cases htb : trimBody env cp l with
      | error u => rw [htb] at h; simp at h
      | ok r =>
        rw [htb] at h
        simp only [pure_eq_ok, Except.ok.injEq] at h
        subst h
        simp only [trimBody] at htb
        cases hloop : trimLoop env cp l with
        | error u => rw [hloop] at htb; simp at htb
        | ok o2 =>
          rw [hloop] at htb
          simp only [ok_bind] at htb
          cases o2 with
          | none => simp at htb
          | some fin =>
            simp only [] at htb
            cases ha : env.area fin with
            | error u => rw [ha] at htb; simp at htb
            | ok area =>
              rw [ha] at htb
              simp only [ok_bind] at htb
              by_cases hlt : area < minTrimArea
              · rw [if_pos hlt] at htb; simp at htb
              · rw [if_neg hlt] at htb
                simp only [pure_eq_ok, Except.ok.injEq, Option.some.injEq] at htb
                subst htb
                have hcp : GoodGeom cp.geometry := hcpg ▸ hggood
                obtain ⟨hgoodf, hsubf, hdisjf⟩ := trimLoop_sound gs hloop hcp
                rw [hcpg] at hsubf
                exact ⟨hggood, hgoodf, hsubf, hdisjf⟩

/-! ## Lemmas about the commit pipeline -/

/-- If every earlier existing geometry passes both enclosure checks and one
check fires at `e`, the enclosure loop rejects with that check's reason. -/
theorem enclosureScan_reject {env : GeoEnv} {cand : Geometry} :
    ∀ {pre : List Geometry} (e : Geometry) (post : List Geometry) {a : Alert},
    (∀ e2 ∈ pre, doesPolygonEnclose env e2 cand = .ok false ∧
        doesPolygonEnclose env cand e2 = .ok false) →
    ((doesPolygonEnclose env e cand = .ok true ∧ a = .wouldBeEnclosed) ∨
      (doesPolygonEnclose env e cand = .ok false ∧
        doesPolygonEnclose env cand e = .ok true ∧ a = .wouldEncloseExisting)) →
    enclosureScan env cand (pre ++ e :: post) = .ok (some a) := by
  intro pre
  induction pre with
  | nil =>
    intro e post a hpre hcase
    simp only [List.nil_append, enclosureScan]
    rcases hcase with ⟨h1, rfl⟩ | ⟨h1, h2, rfl⟩
    · rw [h1]
      simp
    · rw [h1]
      simp only [ok_bind, Bool.false_eq_true, if_false]
      rw [h2]
      simp
  | cons p pre2 ih =>
    intro e post a hpre hcase
    have hp := hpre p (List.mem_cons_self p pre2)
    simp only [List.cons_append, enclosureScan]
    rw [hp.1]
    simp only [ok_bind, Bool.false_eq_true, if_false]
    rw [hp.2]
    simp only [ok_bind, Bool.false_eq_true, if_false]
    exact ih e post (fun e2 he2 => hpre e2 (List.mem_cons_of_mem p he2)) hcase

/-- A rejected enclosure scan makes the commit pipeline reject with that
reason, leaving the feature list untouched — before any overlap or trim
step (`env.intersect`, `env.difference` and `env.area` are arbitrary
here). -/
theorem commitPipeline_of_scan {env : GeoEnv} {newId : String}
    {t : FeatureType} {g : Geometry} {fs : List Feature} {a : Alert}
    (ht : isPolygonType t = true)
    (hscan : enclosureScan env g (polygonTypeGeometries fs) = .ok (some a)) :
    commitPipeline env newId t g fs = .ok (fs, some a) := by
  simp only [commitPipeline, ht, if_true]
  rw [hscan]
  simp

/-- Whenever the commit pipeline raises an alert, the feature list is exactly
what it was before the attempt. -/
theorem commitPipeline_reject_unchanged {env : GeoEnv} {newId : String}
    {t : FeatureType} {g : Geometry} {fs fs2 : List Feature} {a : Alert}
    (h : commitPipeline env newId t g fs = .ok (fs2, some a)) : fs2 = fs := by
  simp only [commitPipeline] at h
  by_cases ht : isPolygonType t = true
  · rw [ht] at h
    simp only [if_true] at h
    cases hscan : enclosureScan env g (polygonTypeGeometries fs) with
    | error u => rw [hscan] at h; simp at h
    | ok o =>
      rw [hscan] at h
      simp only [ok_bind] at h
      cases o with
      | some a2 =>
        simp only [pure_eq_ok, Except.ok.injEq, Prod.mk.injEq] at h
        exact h.1.symm
      | none =>
        simp only [] at h
        cases hov : hasOverlapScan env g (polygonTypeGeometries fs) with
        | error u => rw [hov] at h; simp at h
        | ok b =>
          rw [hov] at h
          simp only [ok_bind] at h
          cases b with
          | false => simp at h
          | true =>
            simp only [if_true] at h
            cases htr : trimPolygonOverlap env g (polygonTypeGeometries fs) with
            | error u => rw [htr] at h; simp at h
            | ok ro =>
              rw [htr] at h
              simp only [ok_bind] at h
              cases ro with
              | none =>
                simp only [pure_eq_ok, Except.ok.injEq, Prod.mk.injEq] at h
                exact h.1.symm
              | some tg => simp at h
  · simp only [Bool.not_eq_true] at ht
    rw [ht] at h
    simp at h

/-- Characterization of a successful commit: exactly one feature is appended,
carrying either the candidate geometry (line strings and non-overlapping
polygon-type candidates) or the trim result. -/
theorem commitPipeline_ok_none {env : GeoEnv} {newId : String}
    {t : FeatureType} {g : Geometry} {fs fs2 : List Feature}
    (h : commitPipeline env newId t g fs = .ok (fs2, none)) :
    ∃ g2, fs2 = fs ++ [⟨newId, t, g2, getFeatureColor t⟩] ∧
      (isPolygonType t = false → g2 = g) ∧
      (isPolygonType t = true →
        (g2 = g ∧ hasOverlapScan env g (polygonTypeGeometries fs) = .ok false) ∨
        trimPolygonOverlap env g (polygonTypeGeometries fs) = .ok (some g2)) := by
  simp only [commitPipeline] at h
  by_cases ht : isPolygonType t = true
  · rw [ht] at h
    simp only [if_true] at h
    cases hscan : enclosureScan env g (polygonTypeGeometries fs) with
    | error u => rw [hscan] at h; simp at h
    | ok o =>
      rw [hscan] at h
      simp only [ok_bind] at h
      cases o with
      | some a2 => simp at h
      | none =>
        simp only [] at h
        cases hov : hasOverlapScan env g (polygonTypeGeometries fs) with
        | error u => rw [hov] at h; simp at h
        | ok b =>
          rw [hov] at h
          simp only [ok_bind] at h
          cases b with
          | false =>
            simp only [Bool.false_eq_true, if_false, pure_eq_ok,
              Except.ok.injEq, Prod.mk.injEq] at h
            exact ⟨g, h.1.symm, fun _ => rfl, fun _ => .inl ⟨rfl, rfl⟩⟩
          | true =>
            simp only [if_true] at h
            cases htr : trimPolygonOverlap env g (polygonTypeGeometries fs) with
            | error u => rw [htr] at h; simp at h
            | ok ro =>
              rw [htr] at h
              simp only [ok_bind] at h
              cases ro with
              | none => simp at h
              | some tg =>
                simp only [pure_eq_ok, Except.ok.injEq, Prod.mk.injEq] at h
                refine ⟨tg, h.1.symm, fun hf => ?_, fun _ => .inr rfl⟩
                rw [hf] at ht
                cases ht
  · simp only [Bool.not_eq_true] at ht
    rw [ht] at h
    simp only [Bool.false_eq_true, if_false, pure_eq_ok, Except.ok.injEq,
      Prod.mk.injEq] at h
    refine ⟨g, h.1.symm, fun _ => rfl, fun hf => ?_⟩
    rw [ht] at hf
    cases hf

/-! ## The store invariant -/

theorem layerMatches_circle {t : FeatureType} {c : LatLng} {rad : ℚ}
    (h : layerMatches t (.circle c rad)) : t = .circle := by
  cases t with
  | circle => rfl
  | polygon => exact absurd h (by simp [layerMatches])
  | rectangle => exact absurd h (by simp [layerMatches])
  | linestring => exact absurd h (by simp [layerMatches])

theorem layerMatches_rectangle {t : FeatureType} {b : Bounds}
    (h : layerMatches t (.rectangle b)) : t = .rectangle := by
  cases t with
  | rectangle => rfl
  | polygon => exact absurd h (by simp [layerMatches])
  | circle => exact absurd h (by simp [layerMatches])
  | linestring => exact absurd h (by simp [layerMatches])

theorem layerMatches_polygon {t : FeatureType}
    (h : layerMatches t .polygon) : t = .polygon := by
  cases t with
  | polygon => rfl
  | rectangle => exact absurd h (by simp [layerMatches])
  | circle => exact absurd h (by simp [layerMatches])
  | linestring => exact absurd h (by simp [layerMatches])

theorem layerMatches_polyline {t : FeatureType}
    (h : layerMatches t .polyline) : t = .linestring := by
  cases t with
  | linestring => rfl
  | rectangle => exact absurd h (by simp [layerMatches])
  | circle => exact absurd h (by simp [layerMatches])
  | polygon => exact absurd h (by simp [layerMatches])

/-- The 5-point bounding-box ring of a rectangle passes ring validation. -/
theorem rectRing_valid (w s e n : ℚ) :
    ringValid [(w, s), (e, s), (e, n), (w, n), (w, s)] = true := by
  unfold ringValid
  rw [Bool.and_eq_true]
  refine ⟨by simp, ?_⟩
  have hlast : ([(w, s), (e, s), (e, n), (w, n), (w, s)] : LinearRing).getLast?
      = some (w, s) := by
    simp [List.getLast?]
  rw [hlast]
  simp

/-- Closing a ring of at least three accumulated points by repeating its
first point yields a ring that passes validation. -/
theorem closeRing_valid {coords : List Pos} (h : 3 ≤ coords.length) :
    ringValid (coords ++ coords.take 1) = true := by
  match coords with
  | p :: rest =>
    have hr : ((p :: rest) ++ (p :: rest).take 1 : List Pos)
        = (p :: rest) ++ [p] := by simp
    rw [hr]
    unfold ringValid
    rw [Bool.and_eq_true]
    constructor
    · rw [decide_eq_true_eq]
      simp only [List.length_append, List.length_cons] at h ⊢
      omega
    · rw [List.getLast?_concat]
      simp

/-- The commit pipeline preserves feature well-formedness and pairwise
disjointness whenever the candidate is well-formed for its type. -/
theorem commitPipeline_preserves {env : GeoEnv} (gs : GeomSound env)
    {newId : String} {t : FeatureType} {g : Geometry} {fs fs2 : List Feature}
    {a : Option Alert}
    (h : commitPipeline env newId t g fs = .ok (fs2, a))
    (hwf : ∀ f ∈ fs, FeatureWF f)
    (hdisj : DisjointFeatures gs.den fs)
    (hgood : isPolygonType t = true → GoodGeom g)
    (hline : t = .linestring → ∃ ps, g = .lineString ps ∧ 2 ≤ ps.length) :
    (∀ f ∈ fs2, FeatureWF f) ∧ DisjointFeatures gs.den fs2 := by
  cases a with
  | some a0 =>
    rw [commitPipeline_reject_unchanged h]
    exact ⟨hwf, hdisj⟩
  | none =>
    obtain ⟨g2, rfl, hnp, hp⟩ := commitPipeline_ok_none h
    constructor
    · intro f hf
      rcases List.mem_append.mp hf with hf | hf
      · exact hwf f hf
      · rw [List.mem_singleton.mp hf]
        constructor
        · intro ht
          rcases hp ht with ⟨rfl, _⟩ | htr
          · exact hgood ht
          · exact (trimPolygonOverlap_sound gs htr).2.1
        · intro ht
          have ht2 : t = FeatureType.linestring := ht
          have hf2 : isPolygonType t = false := by rw [ht2]; rfl
          rw [hnp hf2]
          exact hline ht2
    · rw [DisjointFeatures, List.pairwise_append]
      refine ⟨hdisj, List.pairwise_singleton _ _, ?_⟩
      intro f hf b hb
      rw [List.mem_singleton.mp hb]
      intro hft ht
      have hmem : f.geometry ∈ polygonTypeGeometries fs := by
        unfold polygonTypeGeometries
        exact List.mem_map_of_mem _ (List.mem_filter.mpr ⟨hf, hft⟩)
      have hfgood : GoodGeom f.geometry := (hwf f hf).1 hft
      rcases hp ht with ⟨rfl, hov⟩ | htr
      · have hfalse := hasOverlapScan_false hov f.geometry hmem
        have hdis := doPolygonsOverlap_false_disjoint gs (hgood ht) hfgood hfalse
        rw [Set.inter_comm] at hdis
        exact hdis
      · obtain ⟨_, _, _, hdisj2⟩ := trimPolygonOverlap_sound gs htr
        have hdis := hdisj2 f.geometry hmem hfgood
        rw [Set.inter_comm] at hdis
        exact hdis

/-- Outcomes of the post-geometry part of `finishDrawing`: either a rejection
that leaves store and refs untouched, or a successful commit that appends the
pipeline result and clears the shape refs. -/
theorem commitAndClear_cases {env : GeoEnv} {newId : String} {s : StoreState}
    {r : SessionRefs} {t : FeatureType} {g : Geometry} {s2 : StoreState}
    {r2 : SessionRefs} {a : Option Alert}
    (h : commitAndClear env newId s r t g = .ok (s2, r2, a)) :
    (∃ a0, a = some a0 ∧ s2 = s ∧ r2 = r) ∨
      (a = none ∧ ∃ fs2, commitPipeline env newId t g s.features = .ok (fs2, none) ∧
        s2 = { s with features := fs2 } ∧
        r2 = { r with currentShape := none, polygonPoints := [] }) := by
  simp only [commitAndClear] at h
  cases hcp : commitPipeline env newId t g s.features with
  | error u => rw [hcp] at h; simp at h
  | ok pr =>
    rw [hcp] at h
    simp only [ok_bind] at h
    match pr with
    | (fs2, some a0) =>
      simp only [pure_eq_ok, Except.ok.injEq, Prod.mk.injEq] at h
      exact .inl ⟨a0, h.2.2.symm, h.1.symm, h.2.1.symm⟩
    | (fs2, none) =>
      simp only [pure_eq_ok, Except.ok.injEq, Prod.mk.injEq] at h
      exact .inr ⟨h.2.2.symm, fs2, rfl, h.1.symm, h.2.1.symm⟩

/-- `finishDrawing` preserves well-formedness and disjointness of the
committed features; it never touches the drawing state, and it either leaves
the refs alone (on rejection) or clears the provisional shape (on commit). -/
theorem finishDrawing_preserves {env : GeoEnv} (gs : GeomSound env)
    {newId : String} {s : StoreState} {r : SessionRefs} {t : FeatureType}
    {layer : Layer} {s2 : StoreState} {r2 : SessionRefs} {a : Option Alert}
    (h : finishDrawing env newId s r t layer = .ok (s2, r2, a))
    (hmatch : layerMatches t layer)
    (hwf : ∀ f ∈ s.features, FeatureWF f)
    (hdisj : DisjointFeatures gs.den s.features) :
    (∀ f ∈ s2.features, FeatureWF f) ∧ DisjointFeatures gs.den s2.features ∧
      s2.drawingState = s.drawingState ∧ (r2 = r ∨ r2.currentShape = none) := by
  cases layer with
  | circle center radius =>
    obtain rfl := layerMatches_circle hmatch
    simp only [finishDrawing] at h
    cases hc : env.circle (center.lng, center.lat) (radius / 1000) with
    | error u => rw [hc] at h; simp at h
    | ok cf =>
      rw [hc] at h
      simp only [ok_bind] at h
      have hcg : GoodGeom cf.geometry := gs.circle_wf _ _ cf hc
      rcases commitAndClear_cases h with ⟨a0, rfl, rfl, rfl⟩ | ⟨rfl, fs2, hcp, rfl, rfl⟩
      · exact ⟨hwf, hdisj, rfl, .inl rfl⟩
      · obtain ⟨hwf2, hdisj2⟩ := commitPipeline_preserves gs hcp hwf hdisj
          (fun _ => hcg) (fun hlt => by cases hlt)
        exact ⟨hwf2, hdisj2, rfl, .inr rfl⟩
  | rectangle bounds =>
    obtain rfl := layerMatches_rectangle hmatch
    simp only [finishDrawing] at h
    have hgood : GoodGeom (Geometry.polygon
        [[(bounds.west, bounds.south), (bounds.east, bounds.south),
          (bounds.east, bounds.north), (bounds.west, bounds.north),
          (bounds.west, bounds.south)]]) := by
      refine ⟨_, rfl, ?_⟩
      simp only [ringsOk, List.all_cons, List.all_nil, Bool.and_true]
      exact rectRing_valid bounds.west bounds.south bounds.east bounds.north
    rcases commitAndClear_cases h with ⟨a0, rfl, rfl, rfl⟩ | ⟨rfl, fs2, hcp, rfl, rfl⟩
    · exact ⟨hwf, hdisj, rfl, .inl rfl⟩
    · obtain ⟨hwf2, hdisj2⟩ := commitPipeline_preserves gs hcp hwf hdisj
        (fun _ => hgood) (fun hlt => by cases hlt)
      exact ⟨hwf2, hdisj2, rfl, .inr rfl⟩
  | polygon =>
    obtain rfl := layerMatches_polygon hmatch
    simp only [finishDrawing] at h
    by_cases hlen : r.polygonPoints.length < 3
    · rw [if_pos hlen] at h
      simp only [pure_eq_ok, Except.ok.injEq, Prod.mk.injEq] at h
      obtain ⟨hs, hr2, -⟩ := h
      exact hs ▸ hr2 ▸ ⟨hwf, hdisj, rfl, .inl rfl⟩
    · rw [if_neg hlen] at h
      have h3 : 3 ≤ (r.polygonPoints.map fun ll => (ll.lng, ll.lat)).length := by
        rw [List.length_map]
        omega
      have hgood : GoodGeom (Geometry.polygon
          [(r.polygonPoints.map fun ll => (ll.lng, ll.lat)) ++
            (r.polygonPoints.map fun ll => (ll.lng, ll.lat)).take 1]) := by
        refine ⟨_, rfl, ?_⟩
        simp only [ringsOk, List.all_cons, List.all_nil, Bool.and_true]
        exact closeRing_valid h3
      rcases commitAndClear_cases h with ⟨a0, rfl, rfl, rfl⟩ | ⟨rfl, fs2, hcp, rfl, rfl⟩
      · exact ⟨hwf, hdisj, rfl, .inl rfl⟩
      · obtain ⟨hwf2, hdisj2⟩ := commitPipeline_preserves gs hcp hwf hdisj
          (fun _ => hgood) (fun hlt => by cases hlt)
        exact ⟨hwf2, hdisj2, rfl, .inr rfl⟩
  | polyline =>
    obtain rfl := layerMatches_polyline hmatch
    simp only [finishDrawing] at h
    by_cases hlen : r.polygonPoints.length < 2
    · rw [if_pos hlen] at h
      simp only [pure_eq_ok, Except.ok.injEq, Prod.mk.injEq] at h
      obtain ⟨hs, hr2, -⟩ := h
      exact hs ▸ hr2 ▸ ⟨hwf, hdisj, rfl, .inl rfl⟩
    · rw [if_neg hlen] at h
      rcases commitAndClear_cases h with ⟨a0, rfl, rfl, rfl⟩ | ⟨rfl, fs2, hcp, rfl, rfl⟩
      · exact ⟨hwf, hdisj, rfl, .inl rfl⟩
      · obtain ⟨hwf2, hdisj2⟩ := commitPipeline_preserves gs hcp hwf hdisj
          (fun hh => absurd hh (by decide))
          (fun _ => ⟨r.polygonPoints.map fun ll => (ll.lng, ll.lat), rfl, by
            rw [List.length_map]
            omega⟩)
        exact ⟨hwf2, hdisj2, rfl, .inr rfl⟩

/-- `handleCircleClick` preserves the store invariant (it is only invoked
with the circle mode selected). -/
theorem handleCircleClick_preserves {env : GeoEnv} (gs : GeomSound env)
    {newId : String} {s : StoreState} {r : SessionRefs} {p : LatLng} {d : Bool}
    {s2 : StoreState} {r2 : SessionRefs} {a : Option Alert}
    (h : handleCircleClick env newId s r p d = .ok (s2, r2, a))
    (hmode : s.drawingState.mode = some .circle)
    (hinv : StoreInv gs.den s r) : StoreInv gs.den s2 r2 := by
  obtain ⟨hwf, hdisj, hshape⟩ := hinv
  simp only [handleCircleClick] at h
  cases d with
  | true =>
    rw [if_pos rfl] at h
    cases hcs : r.currentShape with
    | some l =>
      rw [hcs] at h
      cases l with
      | circle c rad =>
        simp only [] at h
        cases hfd : finishDrawing env newId s r .circle (.circle c rad) with
        | error u => rw [hfd] at h; simp at h
        | ok trip =>
          rw [hfd] at h
          obtain ⟨s3, r3, a3⟩ := trip
          simp only [ok_bind, pure_eq_ok, Except.ok.injEq, Prod.mk.injEq] at h
          obtain ⟨h1, h2, h3⟩ := h; subst h1; subst h2; subst h3
          obtain ⟨hwf3, hdisj3, hds3, hr3⟩ :=
            finishDrawing_preserves gs hfd trivial hwf hdisj
          refine ⟨hwf3, hdisj3, ?_⟩
          intro l2 hl2
          rcases hr3 with rfl | hnone
          · obtain ⟨m, hm, hml⟩ := hshape l2 hl2
            exact ⟨m, by rw [setIsDrawing, hds3]; exact hm, hml⟩
          · rw [hnone] at hl2
            cases hl2
      | rectangle b =>
        simp only [pure_eq_ok, Except.ok.injEq, Prod.mk.injEq] at h
        obtain ⟨h1, h2, h3⟩ := h; subst h1; subst h2; subst h3
        refine ⟨hwf, hdisj, ?_⟩
        intro l2 hl2
        obtain ⟨m, hm, hml⟩ := hshape l2 hl2
        exact ⟨m, hm, hml⟩
      | polygon =>
        simp only [pure_eq_ok, Except.ok.injEq, Prod.mk.injEq] at h
        obtain ⟨h1, h2, h3⟩ := h; subst h1; subst h2; subst h3
        refine ⟨hwf, hdisj, ?_⟩
        intro l2 hl2
        obtain ⟨m, hm, hml⟩ := hshape l2 hl2
        exact ⟨m, hm, hml⟩
      | polyline =>
        simp only [pure_eq_ok, Except.ok.injEq, Prod.mk.injEq] at h
        obtain ⟨h1, h2, h3⟩ := h; subst h1; subst h2; subst h3
        refine ⟨hwf, hdisj, ?_⟩
        intro l2 hl2
        obtain ⟨m, hm, hml⟩ := hshape l2 hl2
        exact ⟨m, hm, hml⟩
    | none =>
      rw [hcs] at h
      simp only [pure_eq_ok, Except.ok.injEq, Prod.mk.injEq] at h
      obtain ⟨h1, h2, h3⟩ := h; subst h1; subst h2; subst h3
      refine ⟨hwf, hdisj, ?_⟩
      intro l2 hl2
      obtain ⟨m, hm, hml⟩ := hshape l2 hl2
      exact ⟨m, hm, hml⟩
  | false =>
    rw [if_neg (by simp)] at h
    by_cases hcnt : s.maxShapes.circle ≤
        (s.features.filter fun f => f.type == FeatureType.circle).length
    · rw [if_pos hcnt] at h
      simp only [pure_eq_ok, Except.ok.injEq, Prod.mk.injEq] at h
      obtain ⟨h1, h2, h3⟩ := h; subst h1; subst h2; subst h3
      exact ⟨hwf, hdisj, hshape⟩
    · rw [if_neg hcnt] at h
      simp only [pure_eq_ok, Except.ok.injEq, Prod.mk.injEq] at h
      obtain ⟨h1, h2, h3⟩ := h; subst h1; subst h2; subst h3
      refine ⟨hwf, hdisj, ?_⟩
      intro l2 hl2
      simp only [Option.some.injEq] at hl2
      exact ⟨.circle, hmode, hl2 ▸ trivial⟩

/-- `handleRectangleClick` preserves the store invariant. -/
theorem handleRectangleClick_preserves {env : GeoEnv} (gs : GeomSound env)
    {newId : String} {s : StoreState} {r : SessionRefs} {p : LatLng} {d : Bool}
    {s2 : StoreState} {r2 : SessionRefs} {a : Option Alert}
    (h : handleRectangleClick env newId s r p d = .ok (s2, r2, a))
    (hmode : s.drawingState.mode = some .rectangle)
    (hinv : StoreInv gs.den s r) : StoreInv gs.den s2 r2 := by
  obtain ⟨hwf, hdisj, hshape⟩ := hinv
  simp only [handleRectangleClick] at h
  cases d with
  | true =>
    rw [if_pos rfl] at h
    cases hcs : r.currentShape with
    | some l =>
      rw [hcs] at h
      cases l with
      | rectangle b =>
        simp only [] at h
        cases hfd : finishDrawing env newId s r .rectangle (.rectangle b) with
        | error u => rw [hfd] at h; simp at h
        | ok trip =>
          rw [hfd] at h
          obtain ⟨s3, r3, a3⟩ := trip
          simp only [ok_bind, pure_eq_ok, Except.ok.injEq, Prod.mk.injEq] at h
          obtain ⟨h1, h2, h3⟩ := h; subst h1; subst h2; subst h3
          obtain ⟨hwf3, hdisj3, hds3, hr3⟩ :=
            finishDrawing_preserves gs hfd trivial hwf hdisj
          refine ⟨hwf3, hdisj3, ?_⟩
          intro l2 hl2
          rcases hr3 with rfl | hnone
          · obtain ⟨m, hm, hml⟩ := hshape l2 hl2
            exact ⟨m, by rw [setIsDrawing, hds3]; exact hm, hml⟩
          · rw [hnone] at hl2
            cases hl2
      | circle c rad =>
        simp only [pure_eq_ok, Except.ok.injEq, Prod.mk.injEq] at h
        obtain ⟨h1, h2, h3⟩ := h; subst h1; subst h2; subst h3
        exact ⟨hwf, hdisj, fun l2 hl2 => hshape l2 hl2⟩
      | polygon =>
        simp only [pure_eq_ok, Except.ok.injEq, Prod.mk.injEq] at h
        obtain ⟨h1, h2, h3⟩ := h; subst h1; subst h2; subst h3
        exact ⟨hwf, hdisj, fun l2 hl2 => hshape l2 hl2⟩
      | polyline =>
        simp only [pure_eq_ok, Except.ok.injEq, Prod.mk.injEq] at h
        obtain ⟨h1, h2, h3⟩ := h; subst h1; subst h2; subst h3
        exact ⟨hwf, hdisj, fun l2 hl2 => hshape l2 hl2⟩
    | none =>
      rw [hcs] at h
      simp only [pure_eq_ok, Except.ok.injEq, Prod.mk.injEq] at h
      obtain ⟨h1, h2, h3⟩ := h; subst h1; subst h2; subst h3
      exact ⟨hwf, hdisj, fun l2 hl2 => hshape l2 hl2⟩
  | false =>
    rw [if_neg (by simp)] at h
    by_cases hcnt : s.maxShapes.rectangle ≤
        (s.features.filter fun f => f.type == FeatureType.rectangle).length
    · rw [if_pos hcnt] at h
      simp only [pure_eq_ok, Except.ok.injEq, Prod.mk.injEq] at h
      obtain ⟨h1, h2, h3⟩ := h; subst h1; subst h2; subst h3
      exact ⟨hwf, hdisj, hshape⟩
    · rw [if_neg hcnt] at h
      simp only [pure_eq_ok, Except.ok.injEq, Prod.mk.injEq] at h
      obtain ⟨h1, h2, h3⟩ := h; subst h1; subst h2; subst h3
      refine ⟨hwf, hdisj, ?_⟩
      intro l2 hl2
      simp only [Option.some.injEq] at hl2
      exact ⟨.rectangle, hmode, hl2 ▸ trivial⟩

/-- `handlePolygonClick` preserves the store invariant. -/
theorem handlePolygonClick_preserves {den : Geometry → Set Pos}
    {s : StoreState} {r : SessionRefs} {p : LatLng} {d : Bool}
    {s2 : StoreState} {r2 : SessionRefs} {a : Option Alert}
    (h : handlePolygonClick s r p d = (s2, r2, a))
    (hmode : s.drawingState.mode = some .polygon)
    (hinv : StoreInv den s r) : StoreInv den s2 r2 := by
  obtain ⟨hwf, hdisj, hshape⟩ := hinv
  simp only [handlePolygonClick] at h
  cases d with
  | false =>
    simp only [Bool.not_false] at h
    rw [if_pos trivial] at h
    by_cases hcnt : s.maxShapes.polygon ≤
        (s.features.filter fun f => isPolygonType f.type).length
    · rw [if_pos hcnt] at h
      simp only [Prod.mk.injEq] at h
      obtain ⟨h1, h2, h3⟩ := h; subst h1; subst h2; subst h3
      exact ⟨hwf, hdisj, hshape⟩
    · rw [if_neg hcnt] at h
      simp only [Prod.mk.injEq] at h
      obtain ⟨h1, h2, h3⟩ := h; subst h1; subst h2; subst h3
      refine ⟨hwf, hdisj, ?_⟩
      intro l2 hl2
      simp only [Option.some.injEq] at hl2
      exact ⟨.polygon, hmode, hl2 ▸ trivial⟩
  | true =>
    simp only [Bool.not_true] at h
    rw [if_neg Bool.false_ne_true] at h
    simp only [Prod.mk.injEq] at h
    obtain ⟨h1, h2, h3⟩ := h; subst h1; subst h2; subst h3
    exact ⟨hwf, hdisj, fun l2 hl2 => hshape l2 hl2⟩

/-- `handleLineStringClick` preserves the store invariant. -/
theorem handleLineStringClick_preserves {den : Geometry → Set Pos}
    {s : StoreState} {r : SessionRefs} {p : LatLng} {d : Bool}
    {s2 : StoreState} {r2 : SessionRefs} {a : Option Alert}
    (h : handleLineStringClick s r p d = (s2, r2, a))
    (hmode : s.drawingState.mode = some .linestring)
    (hinv : StoreInv den s r) : StoreInv den s2 r2 := by
  obtain ⟨hwf, hdisj, hshape⟩ := hinv
  simp only [handleLineStringClick] at h
  cases d with
  | false =>
    simp only [Bool.not_false] at h
    rw [if_pos trivial] at h
    by_cases hcnt : s.maxShapes.linestring ≤
        (s.features.filter fun f => f.type == FeatureType.linestring).length
    · rw [if_pos hcnt] at h
      simp only [Prod.mk.injEq] at h
      obtain ⟨h1, h2, h3⟩ := h; subst h1; subst h2; subst h3
      exact ⟨hwf, hdisj, hshape⟩
    · rw [if_neg hcnt] at h
      simp only [Prod.mk.injEq] at h
      obtain ⟨h1, h2, h3⟩ := h; subst h1; subst h2; subst h3
      refine ⟨hwf, hdisj, ?_⟩
      intro l2 hl2
      simp only [Option.some.injEq] at hl2
      exact ⟨.linestring, hmode, hl2 ▸ trivial⟩
  | true =>
    simp only [Bool.not_true] at h
    rw [if_neg Bool.false_ne_true] at h
    simp only [Prod.mk.injEq] at h
    obtain ⟨h1, h2, h3⟩ := h; subst h1; subst h2; subst h3
    exact ⟨hwf, hdisj, fun l2 hl2 => hshape l2 hl2⟩

/-- `finishPolygonOrLineString` preserves the store invariant. -/
theorem finishPolygonOrLineString_preserves {env : GeoEnv} (gs : GeomSound env)
    {newId : String} {s : StoreState} {r : SessionRefs} {t : FeatureType}
    {s2 : StoreState} {r2 : SessionRefs} {a : Option Alert}
    (h : finishPolygonOrLineString env newId s r t = .ok (s2, r2, a))
    (hmode : s.drawingState.mode = some t)
    (hinv : StoreInv gs.den s r) : StoreInv gs.den s2 r2 := by
  obtain ⟨hwf, hdisj, hshape⟩ := hinv
  simp only [finishPolygonOrLineString] at h
  cases hcs : r.currentShape with
  | none =>
    rw [hcs] at h
    simp only [pure_eq_ok, Except.ok.injEq, Prod.mk.injEq] at h
    obtain ⟨h1, h2, h3⟩ := h; subst h1; subst h2; subst h3
    exact ⟨hwf, hdisj, fun l2 hl2 => hshape l2 hl2⟩
  | some layer =>
    rw [hcs] at h
    simp only [] at h
    have hmatch : layerMatches t layer := by
      obtain ⟨m, hm, hml⟩ := hshape layer hcs
      rw [hmode] at hm
      cases Option.some.inj hm
      exact hml
    by_cases hb1 :
        (t == FeatureType.polygon && decide (r.polygonPoints.length < 3)) = true
    · rw [if_pos hb1] at h
      simp only [pure_eq_ok, Except.ok.injEq, Prod.mk.injEq] at h
      obtain ⟨h1, h2, h3⟩ := h; subst h1; subst h2; subst h3
      exact ⟨hwf, hdisj, fun l2 hl2 => hshape l2 hl2⟩
    · rw [if_neg hb1] at h
      by_cases hb2 :
          (t == FeatureType.linestring && decide (r.polygonPoints.length < 2)) = true
      · rw [if_pos hb2] at h
        simp only [pure_eq_ok, Except.ok.injEq, Prod.mk.injEq] at h
        obtain ⟨h1, h2, h3⟩ := h; subst h1; subst h2; subst h3
        exact ⟨hwf, hdisj, fun l2 hl2 => hshape l2 hl2⟩
      · rw [if_neg hb2] at h
        cases hfd : finishDrawing env newId s r t layer with
        | error u => rw [hfd] at h; simp at h
        | ok trip =>
          rw [hfd] at h
          obtain ⟨s3, r3, a3⟩ := trip
          simp only [ok_bind, pure_eq_ok, Except.ok.injEq, Prod.mk.injEq] at h
          obtain ⟨h1, h2, h3⟩ := h; subst h1; subst h2; subst h3
          obtain ⟨hwf3, hdisj3, hds3, hr3⟩ :=
            finishDrawing_preserves gs hfd hmatch hwf hdisj
          refine ⟨hwf3, hdisj3, ?_⟩
          intro l2 hl2
          rcases hr3 with rfl | hnone
          · obtain ⟨m, hm, hml⟩ := hshape l2 hl2
            exact ⟨m, by rw [setIsDrawing, hds3]; exact hm, hml⟩
          · rw [hnone] at hl2
            cases hl2

/-- Map clicks preserve the store invariant. -/
theorem handleMapClick_preserves {env : GeoEnv} (gs : GeomSound env)
    {newId : String} {s : StoreState} {r : SessionRefs} {p : LatLng}
    {s2 : StoreState} {r2 : SessionRefs} {a : Option Alert}
    (h : handleMapClick env newId s r p = .ok (s2, r2, a))
    (hinv : StoreInv gs.den s r) : StoreInv gs.den s2 r2 := by
  simp only [handleMapClick] at h
  cases hmode : s.drawingState.mode with
  | none =>
    rw [hmode] at h
    simp only [pure_eq_ok, Except.ok.injEq, Prod.mk.injEq] at h
    obtain ⟨h1, h2, h3⟩ := h; subst h1; subst h2; subst h3
    exact hinv
  | some m =>
    rw [hmode] at h
    cases m with
    | circle => exact handleCircleClick_preserves gs h hmode hinv
    | rectangle => exact handleRectangleClick_preserves gs h hmode hinv
    | polygon =>
      simp only [pure_eq_ok, Except.ok.injEq] at h
      exact handlePolygonClick_preserves h hmode hinv
    | linestring =>
      simp only [pure_eq_ok, Except.ok.injEq] at h
      exact handleLineStringClick_preserves h hmode hinv

/-- Double clicks preserve the store invariant. -/
theorem handleMapDoubleClick_preserves {env : GeoEnv} (gs : GeomSound env)
    {newId : String} {s : StoreState} {r : SessionRefs}
    {s2 : StoreState} {r2 : SessionRefs} {a : Option Alert}
    (h : handleMapDoubleClick env newId s r = .ok (s2, r2, a))
    (hinv : StoreInv gs.den s r) : StoreInv gs.den s2 r2 := by
  simp only [handleMapDoubleClick] at h
  cases hmode : s.drawingState.mode with
  | none =>
    rw [hmode] at h
    simp only [pure_eq_ok, Except.ok.injEq, Prod.mk.injEq] at h
    obtain ⟨h1, h2, h3⟩ := h; subst h1; subst h2; subst h3
    exact hinv
  | some m =>
    rw [hmode] at h
    cases hd : s.drawingState.isDrawing with
    | false =>
      rw [hd] at h
      cases m with
      | circle =>
        simp only [pure_eq_ok, Except.ok.injEq, Prod.mk.injEq] at h
        obtain ⟨h1, h2, h3⟩ := h; subst h1; subst h2; subst h3
        exact hinv
      | rectangle =>
        simp only [pure_eq_ok, Except.ok.injEq, Prod.mk.injEq] at h
        obtain ⟨h1, h2, h3⟩ := h; subst h1; subst h2; subst h3
        exact hinv
      | polygon =>
        simp only [pure_eq_ok, Except.ok.injEq, Prod.mk.injEq] at h
        obtain ⟨h1, h2, h3⟩ := h; subst h1; subst h2; subst h3
        exact hinv
      | linestring =>
        simp only [pure_eq_ok, Except.ok.injEq, Prod.mk.injEq] at h
        obtain ⟨h1, h2, h3⟩ := h; subst h1; subst h2; subst h3
        exact hinv
    | true =>
      rw [hd] at h
      cases m with
      | circle =>
        simp only [pure_eq_ok, Except.ok.injEq, Prod.mk.injEq] at h
        obtain ⟨h1, h2, h3⟩ := h; subst h1; subst h2; subst h3
        exact hinv
      | rectangle =>
        simp only [pure_eq_ok, Except.ok.injEq, Prod.mk.injEq] at h
        obtain ⟨h1, h2, h3⟩ := h; subst h1; subst h2; subst h3
        exact hinv
      | polygon => exact finishPolygonOrLineString_preserves gs h hmode hinv
      | linestring => exact finishPolygonOrLineString_preserves gs h hmode hinv

/-- Mouse moves preserve the store invariant. -/
theorem handleMapMouseMove_preserves {env : GeoEnv} {den : Geometry → Set Pos}
    {s : StoreState} {r : SessionRefs} {p : LatLng}
    (hinv : StoreInv den s r) :
    StoreInv den s (handleMapMouseMove env s r p) := by
  obtain ⟨hwf, hdisj, hshape⟩ := hinv
  refine ⟨hwf, hdisj, ?_⟩
  intro l2 hl2
  simp only [handleMapMouseMove] at hl2
  cases hmode : s.drawingState.mode with
  | none =>
    rw [hmode] at hl2
    obtain ⟨m2, hm2, hml2⟩ := hshape l2 hl2
    rw [hmode] at hm2
    exact ⟨m2, hm2, hml2⟩
  | some m =>
    rw [hmode] at hl2
    cases hd : s.drawingState.isDrawing with
    | false =>
      rw [hd] at hl2
      obtain ⟨m2, hm2, hml2⟩ := hshape l2 hl2
      rw [hmode] at hm2
      exact ⟨m2, hm2, hml2⟩
    | true =>
      rw [hd] at hl2
      cases hsp : r.startPoint with
      | none =>
        rw [hsp] at hl2
        obtain ⟨m2, hm2, hml2⟩ := hshape l2 hl2
        rw [hmode] at hm2
        exact ⟨m2, hm2, hml2⟩
      | some start =>
        rw [hsp] at hl2
        simp only [] at hl2
        cases m with
        | circle =>
          cases hcs : r.currentShape with
          | none =>
            rw [hcs] at hl2
            obtain ⟨m2, hm2, hml2⟩ := hshape l2 hl2
            rw [hmode] at hm2
            exact ⟨m2, hm2, hml2⟩
          | some l3 =>
            rw [hcs] at hl2
            cases l3 with
            | circle c rad =>
              simp only [Option.some.injEq] at hl2
              exact ⟨.circle, rfl, hl2 ▸ trivial⟩
            | rectangle b =>
              obtain ⟨m2, hm2, hml2⟩ := hshape l2 hl2
              rw [hmode] at hm2
              exact ⟨m2, hm2, hml2⟩
            | polygon =>
              obtain ⟨m2, hm2, hml2⟩ := hshape l2 hl2
              rw [hmode] at hm2
              exact ⟨m2, hm2, hml2⟩
            | polyline =>
              obtain ⟨m2, hm2, hml2⟩ := hshape l2 hl2
              rw [hmode] at hm2
              exact ⟨m2, hm2, hml2⟩
        | rectangle =>
          cases hcs : r.currentShape with
          | none =>
            rw [hcs] at hl2
            obtain ⟨m2, hm2, hml2⟩ := hshape l2 hl2
            rw [hmode] at hm2
            exact ⟨m2, hm2, hml2⟩
          | some l3 =>
            rw [hcs] at hl2
            cases l3 with
            | rectangle b =>
              simp only [Option.some.injEq] at hl2
              exact ⟨.rectangle, rfl, hl2 ▸ trivial⟩
            | circle c rad =>
              obtain ⟨m2, hm2, hml2⟩ := hshape l2 hl2
              rw [hmode] at hm2
              exact ⟨m2, hm2, hml2⟩
            | polygon =>
              obtain ⟨m2, hm2, hml2⟩ := hshape l2 hl2
              rw [hmode] at hm2
              exact ⟨m2, hm2, hml2⟩
            | polyline =>
              obtain ⟨m2, hm2, hml2⟩ := hshape l2 hl2
              rw [hmode] at hm2
              exact ⟨m2, hm2, hml2⟩
        | polygon =>
          obtain ⟨m2, hm2, hml2⟩ := hshape l2 hl2
          rw [hmode] at hm2
          exact ⟨m2, hm2, hml2⟩
        | linestring =>
          obtain ⟨m2, hm2, hml2⟩ := hshape l2 hl2
          rw [hmode] at hm2
          exact ⟨m2, hm2, hml2⟩

/-- The store invariant holds in every reachable state. -/
theorem reach_StoreInv {env : GeoEnv} (gs : GeomSound env)
    {s : StoreState} {r : SessionRefs} (h : Reach env s r) :
    StoreInv gs.den s r := by
  induction h with
  | init =>
    refine ⟨fun f hf => absurd hf (List.not_mem_nil f), List.Pairwise.nil, ?_⟩
    intro l hl
    cases hl
  | click newId latlng hr heq ih => exact handleMapClick_preserves gs heq ih
  | dblclick newId hr heq ih => exact handleMapDoubleClick_preserves gs heq ih
  | mousemove latlng hr ih => exact handleMapMouseMove_preserves ih
  | modeChange m hr ih =>
    obtain ⟨hwf, hdisj, hshape⟩ := ih
    refine ⟨hwf, hdisj, ?_⟩
    intro l hl
    cases hl
  | removeF id hr ih =>
    obtain ⟨hwf, hdisj, hshape⟩ := ih
    refine ⟨?_, ?_, fun l hl => hshape l hl⟩
    · intro f hf
      exact hwf f (List.mem_of_mem_filter hf)
    · exact hdisj.sublist (List.filter_sublist _)
  | clearF hr ih =>
    obtain ⟨hwf, hdisj, hshape⟩ := ih
    refine ⟨fun f hf => absurd hf (List.not_mem_nil f), List.Pairwise.nil, ?_⟩
    intro l hl
    split at hl
    · obtain ⟨m, hm, hml⟩ := hshape l hl
      next heq => rw [heq] at hm; cases hm
    · cases hl
  | setMax t n hr ih =>
    obtain ⟨hwf, hdisj, hshape⟩ := ih
    exact ⟨hwf, hdisj, fun l hl => hshape l hl⟩

/-! ## Concrete instances for witnesses -/

/-- A quadruple-repeated point passes ring validation. -/
theorem ringValid_four (c : Pos) : ringValid [c, c, c, c] = true := by
  unfold ringValid
  rw [Bool.and_eq_true]
  refine ⟨by simp, ?_⟩
  have hlast : ([c, c, c, c] : LinearRing).getLast? = some c := by
    simp [List.getLast?]
  rw [hlast]
  simp

/-- The witness run: select polygon mode, click three corners, double-click
to commit, and repeat for a second triangle. -/
theorem wReach : Reach trivEnv wStore ⟨none, none, []⟩ := by
  have h0 : Reach trivEnv initialStore emptyRefs := Reach.init
  have h1 : Reach trivEnv
      ⟨[], ⟨some FeatureType.polygon, false⟩, MAX_SHAPES_CONFIG⟩ emptyRefs :=
    Reach.modeChange (some FeatureType.polygon) h0
  have h2 : Reach trivEnv
      ⟨[], ⟨some FeatureType.polygon, true⟩, MAX_SHAPES_CONFIG⟩
      ⟨some Layer.polygon, none, [⟨0, 0⟩]⟩ :=
    Reach.click "f1" ⟨0, 0⟩ h1 (show handleMapClick trivEnv "f1"
      ⟨[], ⟨some FeatureType.polygon, false⟩, MAX_SHAPES_CONFIG⟩ emptyRefs ⟨0, 0⟩
      = .ok (⟨[], ⟨some FeatureType.polygon, true⟩, MAX_SHAPES_CONFIG⟩,
        ⟨some Layer.polygon, none, [⟨0, 0⟩]⟩, none) from by decide)
  have h3 : Reach trivEnv
      ⟨[], ⟨some FeatureType.polygon, true⟩, MAX_SHAPES_CONFIG⟩
      ⟨some Layer.polygon, none, [⟨0, 0⟩, ⟨0, 1⟩]⟩ :=
    Reach.click "f1" ⟨0, 1⟩ h2 (show handleMapClick trivEnv "f1"
      ⟨[], ⟨some FeatureType.polygon, true⟩, MAX_SHAPES_CONFIG⟩
      ⟨some Layer.polygon, none, [⟨0, 0⟩]⟩ ⟨0, 1⟩
      = .ok (⟨[], ⟨some FeatureType.polygon, true⟩, MAX_SHAPES_CONFIG⟩,
        ⟨some Layer.polygon, none, [⟨0, 0⟩, ⟨0, 1⟩]⟩, none) from by decide)
  have h4 : Reach trivEnv
      ⟨[], ⟨some FeatureType.polygon, true⟩, MAX_SHAPES_CONFIG⟩
      ⟨some Layer.polygon, none, [⟨0, 0⟩, ⟨0, 1⟩, ⟨1, 1⟩]⟩ :=
    Reach.click "f1" ⟨1, 1⟩ h3 (show handleMapClick trivEnv "f1"
      ⟨[], ⟨some FeatureType.polygon, true⟩, MAX_SHAPES_CONFIG⟩
      ⟨some Layer.polygon, none, [⟨0, 0⟩, ⟨0, 1⟩]⟩ ⟨1, 1⟩
      = .ok (⟨[], ⟨some FeatureType.polygon, true⟩, MAX_SHAPES_CONFIG⟩,
        ⟨some Layer.polygon, none, [⟨0, 0⟩, ⟨0, 1⟩, ⟨1, 1⟩]⟩, none) from by decide)
  have h5 : Reach trivEnv
      ⟨[wP1], ⟨some FeatureType.polygon, false⟩, MAX_SHAPES_CONFIG⟩
      ⟨none, none, []⟩ :=
    Reach.dblclick "f1" h4 (show handleMapDoubleClick trivEnv "f1"
      ⟨[], ⟨some FeatureType.polygon, true⟩, MAX_SHAPES_CONFIG⟩
      ⟨some Layer.polygon, none, [⟨0, 0⟩, ⟨0, 1⟩, ⟨1, 1⟩]⟩
      = .ok (⟨[wP1], ⟨some FeatureType.polygon, false⟩, MAX_SHAPES_CONFIG⟩,
        ⟨none, none, []⟩, none) from by decide)
  have h6 : Reach trivEnv
      ⟨[wP1], ⟨some FeatureType.polygon, true⟩, MAX_SHAPES_CONFIG⟩
      ⟨some Layer.polygon, none, [⟨10, 10⟩]⟩ :=
    Reach.click "f2" ⟨10, 10⟩ h5 (show handleMapClick trivEnv "f2"
      ⟨[wP1], ⟨some FeatureType.polygon, false⟩, MAX_SHAPES_CONFIG⟩
      ⟨none, none, []⟩ ⟨10, 10⟩
      = .ok (⟨[wP1], ⟨some FeatureType.polygon, true⟩, MAX_SHAPES_CONFIG⟩,
        ⟨some Layer.polygon, none, [⟨10, 10⟩]⟩, none) from by decide)
  have h7 : Reach trivEnv
      ⟨[wP1], ⟨some FeatureType.polygon, true⟩, MAX_SHAPES_CONFIG⟩
      ⟨some Layer.polygon, none, [⟨10, 10⟩, ⟨10, 11⟩]⟩ :=
    Reach.click "f2" ⟨10, 11⟩ h6 (show handleMapClick trivEnv "f2"
      ⟨[wP1], ⟨some FeatureType.polygon, true⟩, MAX_SHAPES_CONFIG⟩
      ⟨some Layer.polygon, none, [⟨10, 10⟩]⟩ ⟨10, 11⟩
      = .ok (⟨[wP1], ⟨some FeatureType.polygon, true⟩, MAX_SHAPES_CONFIG⟩,
        ⟨some Layer.polygon, none, [⟨10, 10⟩, ⟨10, 11⟩]⟩, none) from by decide)
  have h8 : Reach trivEnv
      ⟨[wP1], ⟨some FeatureType.polygon, true⟩, MAX_SHAPES_CONFIG⟩
      ⟨some Layer.polygon, none, [⟨10, 10⟩, ⟨10, 11⟩, ⟨11, 11⟩]⟩ :=
    Reach.click "f2" ⟨11, 11⟩ h7 (show handleMapClick trivEnv "f2"
      ⟨[wP1], ⟨some FeatureType.polygon, true⟩, MAX_SHAPES_CONFIG⟩
      ⟨some Layer.polygon, none, [⟨10, 10⟩, ⟨10, 11⟩]⟩ ⟨11, 11⟩
      = .ok (⟨[wP1], ⟨some FeatureType.polygon, true⟩, MAX_SHAPES_CONFIG⟩,
        ⟨some Layer.polygon, none, [⟨10, 10⟩, ⟨10, 11⟩, ⟨11, 11⟩]⟩, none)
      from by decide)
  exact Reach.dblclick "f2" h8 (show handleMapDoubleClick trivEnv "f2"
    ⟨[wP1], ⟨some FeatureType.polygon, true⟩, MAX_SHAPES_CONFIG⟩
    ⟨some Layer.polygon, none, [⟨10, 10⟩, ⟨10, 11⟩, ⟨11, 11⟩]⟩
    = .ok (wStore, ⟨none, none, []⟩, none) from by decide)

/-! ## Claim theorems -/

/-- C1: Non-overlap invariant — in every reachable state of the Feature
Store, for every two distinct simultaneously committed polygon-type features
(polygon, rectangle, circle), `doPolygonsOverlap` applied to their geometries
returns `false`; linestring features are exempt as they are not polygon-type. -/
theorem c1_committed_polygons_never_overlap {env : GeoEnv} (gs : GeomSound env)
    {s : StoreState} {r : SessionRefs} (hreach : Reach env s r)
    (i j : ℕ) (hi : i < s.features.length) (hj : j < s.features.length)
    (hne : i ≠ j)
    (hpi : isPolygonType (s.features.get ⟨i, hi⟩).type = true)
    (hpj : isPolygonType (s.features.get ⟨j, hj⟩).type = true) :
    doPolygonsOverlap env (s.features.get ⟨i, hi⟩).geometry
      (s.features.get ⟨j, hj⟩).geometry = Except.ok false := by
  obtain ⟨hwf, hdisj, -⟩ := reach_StoreInv gs hreach
  have hgi : GoodGeom (s.features.get ⟨i, hi⟩).geometry :=
    (hwf _ (List.get_mem _ _ _)).1 hpi
  have hgj : GoodGeom (s.features.get ⟨j, hj⟩).geometry :=
    (hwf _ (List.get_mem _ _ _)).1 hpj
  have hpair := List.pairwise_iff_get.mp hdisj
  rcases Nat.lt_or_ge i j with hij | hij
  · have hd := hpair ⟨i, hi⟩ ⟨j, hj⟩ (Fin.mk_lt_mk.mpr hij) hpi hpj
    exact doPolygonsOverlap_of_disjoint gs hgi hgj hd
  · have hij2 : j < i := Nat.lt_of_le_of_ne hij (Ne.symm hne)
    have hd := hpair ⟨j, hj⟩ ⟨i, hi⟩ (Fin.mk_lt_mk.mpr hij2) hpj hpi
    rw [Set.inter_comm] at hd
    exact doPolygonsOverlap_of_disjoint gs hgi hgj hd

/-- C1 witness: after an explicit two-triangle drawing run in the concrete
environment, the two committed polygon features do not overlap. -/
theorem c1_committed_polygons_never_overlap_witness :
    doPolygonsOverlap trivEnv wP1.geometry wP2.geometry = Except.ok false :=
  c1_committed_polygons_never_overlap trivSound wReach 0 1 (by decide)
    (by decide) (by decide) (by decide) (by decide)

/-- C2 counterexample: the claim says no exception from the geometry library
ever propagates, including those raised while converting an input geometry in
step 1 — but `geometryToPolygon` runs *before* the `try` block, so the
`turf.polygon` validation exception on a 1-point ring propagates out of
`doPolygonsOverlap`. -/
theorem c2_conversion_exception_propagates :
    doPolygonsOverlap trivEnv (Geometry.polygon [[(0, 0)]])
      (Geometry.polygon [[(0, 0), (1, 0), (1, 1), (0, 0)]])
      = Except.error () := by decide

/-- C2 (amended): exceptions raised inside the `try` blocks never propagate —
whenever converting the direct inputs succeeds (both inputs of the overlap
and enclosure predicates, the candidate of the trim), every library failure
is downgraded to `false` (predicates) or `null` (trim). -/
theorem c2_no_propagation_after_conversion (env : GeoEnv) (g1 g2 : Geometry)
    (exs : List Geometry) (p1 p2 : Option TFeature)
    (h1 : geometryToPolygon g1 = .ok p1)
    (h2 : geometryToPolygon g2 = .ok p2) :
    (∃ b, doPolygonsOverlap env g1 g2 = .ok b) ∧
      (∃ b, doesPolygonEnclose env g1 g2 = .ok b) ∧
      (∃ ro, trimPolygonOverlap env g1 exs = .ok ro) := by
  refine ⟨?_, ?_, ?_⟩
  · simp only [doPolygonsOverlap]
    rw [h1, h2]
    simp only [ok_bind]
    cases p1 with
    | none =>
      cases p2 with
      | none => exact ⟨false, rfl⟩
      | some q2 => exact ⟨false, rfl⟩
    | some q1 =>
      cases p2 with
      | none => exact ⟨false, rfl⟩
      | some q2 =>
        simp only []
        cases hi : env.intersect q1 q2 with
        | ok rr => exact ⟨rr.isSome, rfl⟩
        | error u => exact ⟨false, rfl⟩
  · simp only [doesPolygonEnclose]
    rw [h1, h2]
    simp only [ok_bind]
    cases p1 with
    | none =>
      cases p2 with
      | none => exact ⟨false, rfl⟩
      | some q2 => exact ⟨false, rfl⟩
    | some q1 =>
      cases p2 with
      | none => exact ⟨false, rfl⟩
      | some q2 =>
        simp only []
        cases hb : env.booleanContains q1 q2 with
        | ok b => exact ⟨b, rfl⟩
        | error u => exact ⟨false, rfl⟩
  · simp only [trimPolygonOverlap]
    rw [h1]
    simp only [ok_bind]
    cases p1 with
    | none => exact ⟨none, rfl⟩
    | some cp =>
      simp only []
      cases htb : trimBody env cp exs with
      | ok ro => exact ⟨ro, rfl⟩
      | error u => exact ⟨none, rfl⟩

/-- C2 witness for the amended claim, at concrete validated inputs. -/
theorem c2_no_propagation_after_conversion_witness :
    (∃ b, doPolygonsOverlap trivEnv wP1.geometry wP2.geometry = .ok b) ∧
      (∃ b, doesPolygonEnclose trivEnv wP1.geometry wP2.geometry = .ok b) ∧
      (∃ ro, trimPolygonOverlap trivEnv wP1.geometry [] = .ok ro) :=
  c2_no_propagation_after_conversion trivEnv wP1.geometry wP2.geometry []
    (some ⟨wP1.geometry⟩) (some ⟨wP2.geometry⟩) (by decide) (by decide)

/-- C9: whenever the drawing mode changes (including deselecting to `none`),
the in-progress session state — provisional shape, anchor point, accumulated
point list, is-drawing flag — is reset, and the committed feature collection
is left exactly unchanged. -/
theorem c9_mode_change_cancellation (s : StoreState) (m : Option FeatureType) :
    (changeMode s m).1.features = s.features ∧
      (changeMode s m).2 = emptyRefs ∧
      (changeMode s m).1.drawingState = ⟨m, false⟩ ∧
      (changeMode s m).1.maxShapes = s.maxShapes :=
  ⟨rfl, rfl, rfl, rfl⟩

/-- C7 counterexample: trimming against an empty existing set does not always
return the candidate unchanged — a degenerate candidate (area `0`, as
`turf.area` reports for a repeated-point ring) falls under the `0.0001`
floor and the call returns `null` instead of the candidate. -/
theorem c7_empty_trim_counterexample :
    trimPolygonOverlap trivEnv
      (Geometry.polygon [[(0, 0), (0, 0), (0, 0), (0, 0)]]) []
      = Except.ok none := by decide

/-- C7 (amended): trimming a candidate whose ring passes `turf.polygon`
validation and whose area is at least the `0.0001` floor against an empty
existing set returns the candidate's geometry exactly unchanged. -/
theorem c7_empty_trim_identity (env : GeoEnv) (css : List LinearRing) (a : ℚ)
    (hok : ringsOk css = true)
    (ha : env.area ⟨.polygon css⟩ = .ok a)
    (hfloor : ¬ a < minTrimArea) :
    trimPolygonOverlap env (.polygon css) []
      = .ok (some (.polygon css)) := by
  simp only [trimPolygonOverlap, geometryToPolygon_polygon, turfPolygon_of_ok hok]
  simp only [Except.map, ok_bind]
  simp only [trimBody, trimLoop, pure_eq_ok, ok_bind]
  rw [ha]
  simp only [ok_bind]
  rw [if_neg hfloor]

/-- C7 witness: a unit square candidate with area `1` in an environment whose
area measure reports `1` comes back unchanged from an empty-set trim. -/
theorem c7_empty_trim_identity_witness :
    trimPolygonOverlap { trivEnv with area := fun _ => .ok 1 }
      (.polygon [[(0, 0), (1, 0), (1, 1), (0, 0)]]) []
      = .ok (some (.polygon [[(0, 0), (1, 0), (1, 1), (0, 0)]])) :=
  c7_empty_trim_identity { trivEnv with area := fun _ => .ok 1 }
    [[(0, 0), (1, 0), (1, 1), (0, 0)]] 1 (by decide) (by decide) (by decide)

/-- C3: commit-pipeline ordering and atomicity — both enclosure directions
are checked for every committed polygon-type geometry in collection order
before any overlap or trim step (the conclusion holds for arbitrary
`intersect`/`difference`/`area` behavior), the first failing check rejects
with its distinguishable reason, and any rejection leaves the feature list
exactly as it was. -/
theorem c3_enclosure_order_and_atomicity :
    (∀ (env : GeoEnv) (newId : String) (t : FeatureType) (g : Geometry)
        (fs : List Feature) (pre : List Geometry) (e : Geometry)
        (post : List Geometry) (a : Alert),
      isPolygonType t = true →
      polygonTypeGeometries fs = pre ++ e :: post →
      (∀ e2 ∈ pre, doesPolygonEnclose env e2 g = .ok false ∧
          doesPolygonEnclose env g e2 = .ok false) →
      ((doesPolygonEnclose env e g = .ok true ∧ a = .wouldBeEnclosed) ∨
        (doesPolygonEnclose env e g = .ok false ∧
          doesPolygonEnclose env g e = .ok true ∧ a = .wouldEncloseExisting)) →
      commitPipeline env newId t g fs = .ok (fs, some a)) ∧
    (∀ (env : GeoEnv) (newId : String) (t : FeatureType) (g : Geometry)
        (fs fs2 : List Feature) (a : Alert),
      commitPipeline env newId t g fs = .ok (fs2, some a) → fs2 = fs) := by
  constructor
  · intro env newId t g fs pre e post a ht hlist hpre hcase
    have hscan := enclosureScan_reject e post hpre hcase
    rw [← hlist] at hscan
    exact commitPipeline_of_scan ht hscan
  · intro env newId t g fs fs2 a h
    exact commitPipeline_reject_unchanged h

/-- C3 witness: a candidate enclosed by the single committed polygon is
rejected with the "would be enclosed" reason and the feature list is
unchanged. -/
theorem c3_enclosure_order_and_atomicity_witness :
    commitPipeline encloseEnv "w3" FeatureType.polygon wP2.geometry [wP1]
      = .ok ([wP1], some Alert.wouldBeEnclosed) ∧ ([wP1] : List Feature) = [wP1] := by
  constructor
  · exact c3_enclosure_order_and_atomicity.1 encloseEnv "w3" FeatureType.polygon
      wP2.geometry [wP1] [] wP1.geometry [] Alert.wouldBeEnclosed (by decide)
      (by decide) (fun e2 he2 => absurd he2 (List.not_mem_nil e2))
      (.inl ⟨by decide, rfl⟩)
  · exact c3_enclosure_order_and_atomicity.2 encloseEnv "w3" FeatureType.polygon
      wP2.geometry [wP1] [wP1] Alert.wouldBeEnclosed
      (c3_enclosure_order_and_atomicity.1 encloseEnv "w3" FeatureType.polygon
        wP2.geometry [wP1] [] wP1.geometry [] Alert.wouldBeEnclosed (by decide)
        (by decide) (fun e2 he2 => absurd he2 (List.not_mem_nil e2))
        (.inl ⟨by decide, rfl⟩))

/-- C10: a candidate geometrically coincident with a committed polygon-type
feature — `booleanContains` holds in both directions — is rejected with the
"would be enclosed" reason (not "would enclose existing"), because for each
existing feature the existing-encloses-candidate check runs first; the
feature list is unchanged and the conclusion holds for arbitrary
`intersect`/`difference`/`area` behavior, so no trim is attempted.  The
earlier committed features are assumed to pass both enclosure checks, which
the non-overlap invariant guarantees for a reachable store. -/
theorem c10_coincident_rejected_as_enclosed (env : GeoEnv) (newId : String)
    (t : FeatureType) (g : Geometry) (fs : List Feature) (pre : List Geometry)
    (e : Geometry) (post : List Geometry)
    (ht : isPolygonType t = true)
    (hlist : polygonTypeGeometries fs = pre ++ e :: post)
    (hpre : ∀ e2 ∈ pre, doesPolygonEnclose env e2 g = .ok false ∧
        doesPolygonEnclose env g e2 = .ok false)
    (hin : doesPolygonEnclose env e g = .ok true)
    (_hout : doesPolygonEnclose env g e = .ok true) :
    commitPipeline env newId t g fs = .ok (fs, some Alert.wouldBeEnclosed) := by
  have hscan := enclosureScan_reject e post hpre (.inl ⟨hin, rfl⟩)
  rw [← hlist] at hscan
  exact commitPipeline_of_scan ht hscan

/-- C10 witness: a candidate coincident with the only committed polygon is
rejected as "would be enclosed". -/
theorem c10_coincident_rejected_as_enclosed_witness :
    commitPipeline encloseEnv "w10" FeatureType.polygon wP1.geometry [wP1]
      = .ok ([wP1], some Alert.wouldBeEnclosed) :=
  c10_coincident_rejected_as_enclosed encloseEnv "w10" FeatureType.polygon
    wP1.geometry [wP1] [] wP1.geometry [] (by decide) (by decide)
    (fun e2 he2 => absurd he2 (List.not_mem_nil e2)) (by decide) (by decide)

/-- C4: area floor — `trimPolygonOverlap` never returns a polygon whose area
(as measured by the library) is below the `0.0001` threshold, and a candidate
whose area is entirely covered by one existing polygon (non-empty
intersection, empty difference) yields `none`. -/
theorem c4_trim_area_floor :
    (∀ (env : GeoEnv) (cand : Geometry) (exs : List Geometry) (tg : Geometry),
      trimPolygonOverlap env cand exs = .ok (some tg) →
      ∃ a, env.area ⟨tg⟩ = .ok a ∧ ¬ a < minTrimArea) ∧
    (∀ (env : GeoEnv) (cand e : Geometry) (pc pe x : TFeature),
      geometryToPolygon cand = .ok (some pc) →
      geometryToPolygon e = .ok (some pe) →
      env.intersect pc pe = .ok (some x) →
      env.difference pc pe = .ok none →
      trimPolygonOverlap env cand [e] = .ok none) := by
  constructor
  · intro env cand exs tg h
    simp only [trimPolygonOverlap] at h
    cases hconv : geometryToPolygon cand with
    | error u => rw [hconv] at h; simp at h
    | ok o =>
      rw [hconv] at h
      simp only [ok_bind] at h
      cases o with
      | none => simp at h
      | some cp =>
        simp only [] at h
        cases htb : trimBody env cp exs with
        | error u => rw [htb] at h; simp at h
        | ok ro =>
          rw [htb] at h
          simp only [pure_eq_ok, Except.ok.injEq] at h
          subst h
          simp only [trimBody] at htb
          cases hloop : trimLoop env cp exs with
          | error u => rw [hloop] at htb; simp at htb
          | ok o2 =>
            rw [hloop] at htb
            simp only [ok_bind] at htb
            cases o2 with
            | none => simp at htb
            | some fin =>
              simp only [] at htb
              cases ha : env.area fin with
              | error u => rw [ha] at htb; simp at htb
              | ok area =>
                rw [ha] at htb
                simp only [ok_bind] at htb
                by_cases hlt : area < minTrimArea
                · rw [if_pos hlt] at htb; simp at htb
                · rw [if_neg hlt] at htb
                  simp only [pure_eq_ok, Except.ok.injEq, Option.some.injEq] at htb
                  subst htb
                  exact ⟨area, ha, hlt⟩
  · intro env cand e pc pe x hc he hi hd
    simp only [trimPolygonOverlap, hc, ok_bind]
    simp only [trimBody, trimLoop, trimStep, he, ok_bind, hi, hd]
    rfl

/-- C4 witness: exercising the floor on a successful empty-set trim and the
fully-covered case on a one-element existing set. -/
theorem c4_trim_area_floor_witness :
    (∃ a, ({ trivEnv with area := fun _ => .ok 1 } : GeoEnv).area
        ⟨wP1.geometry⟩ = .ok a ∧ ¬ a < minTrimArea) ∧
    trimPolygonOverlap
      { trivEnv with intersect := fun _ _ => .ok (some ⟨.polygon []⟩) }
      wP2.geometry [wP1.geometry] = .ok none := by
  constructor
  · exact c4_trim_area_floor.1 { trivEnv with area := fun _ => .ok 1 }
      wP1.geometry [] wP1.geometry (by decide)
  · exact c4_trim_area_floor.2
      { trivEnv with intersect := fun _ _ => .ok (some ⟨.polygon []⟩) }
      wP2.geometry wP1.geometry ⟨wP2.geometry⟩ ⟨wP1.geometry⟩ ⟨.polygon []⟩
      (by decide) (by decide) (by decide) (by decide)

/-- When every area evaluation succeeds, the effectful `reduce` computes the
pure selection. -/
theorem reduceLargest_eq_selectLargest {env : GeoEnv} (A : TFeature → ℚ) :
    ∀ (l : List TFeature) (mx : TFeature),
    (∀ q ∈ mx :: l, env.area q = .ok (A q)) →
    reduceLargest env mx l = .ok (selectLargest A mx l) := by
  intro l
  induction l with
  | nil =>
    intro mx h
    simp [reduceLargest, selectLargest]
  | cons p rest ih =>
    intro mx h
    simp only [reduceLargest, selectLargest]
    rw [h mx (by simp), h p (by simp)]
    simp only [ok_bind]
    refine ih (if A mx < A p then p else mx) ?_
    intro q hq
    rcases List.mem_cons.mp hq with rfl | hq2
    · by_cases hc : A mx < A p
      · simp only [if_pos hc]
        exact h p (by simp)
      · simp only [if_neg hc]
        exact h mx (by simp)
    · exact h q (by simp [hq2])

/-- The selected part is one of the parts. -/
theorem selectLargest_mem (A : TFeature → ℚ) :
    ∀ (l : List TFeature) (mx : TFeature), selectLargest A mx l ∈ mx :: l := by
  intro l
  induction l with
  | nil =>
    intro mx
    simp [selectLargest]
  | cons p rest ih =>
    intro mx
    simp only [selectLargest]
    rcases List.mem_cons.mp (ih (if A mx < A p then p else mx)) with heq | hmem
    · rw [heq]
      by_cases hc : A mx < A p
      · simp [if_pos hc]
      · simp [if_neg hc]
    · exact List.mem_cons_of_mem mx (List.mem_cons_of_mem p hmem)

/-- The selected part has maximal area among the parts. -/
theorem selectLargest_max (A : TFeature → ℚ) :
    ∀ (l : List TFeature) (mx : TFeature) (q : TFeature), q ∈ mx :: l →
    A q ≤ A (selectLargest A mx l) := by
  intro l
  induction l with
  | nil =>
    intro mx q hq
    rcases List.mem_cons.mp hq with rfl | hq2
    · simp [selectLargest]
    · cases hq2
  | cons p rest ih =>
    intro mx q hq
    simp only [selectLargest]
    have hm2 : A (if A mx < A p then p else mx) ≤
        A (selectLargest A (if A mx < A p then p else mx) rest) :=
      ih _ _ (List.mem_cons_self _ _)
    rcases List.mem_cons.mp hq with rfl | hq2
    · by_cases hc : A q < A p
      · rw [if_pos hc] at hm2 ⊢
        exact le_trans (le_of_lt hc) hm2
      · rw [if_neg hc] at hm2 ⊢
        exact hm2
    · rcases List.mem_cons.mp hq2 with rfl | hq3
      · by_cases hc : A mx < A q
        · rw [if_pos hc] at hm2 ⊢
          exact hm2
        · rw [if_neg hc] at hm2 ⊢
          exact le_trans (le_of_not_lt hc) hm2
      · exact ih _ q (List.mem_cons_of_mem _ hq3)

/-- The selected part is the first part attaining the maximal area: every
part strictly before it has strictly smaller area. -/
theorem selectLargest_first (A : TFeature → ℚ) :
    ∀ (l : List TFeature) (mx : TFeature),
    ∃ pre post, mx :: l = pre ++ selectLargest A mx l :: post ∧
      ∀ q ∈ pre, A q < A (selectLargest A mx l) := by
  intro l
  induction l with
  | nil =>
    intro mx
    exact ⟨[], [], by simp [selectLargest], fun q hq => absurd hq (List.not_mem_nil q)⟩
  | cons p rest ih =>
    intro mx
    by_cases hc : A mx < A p
    · obtain ⟨pre2, post2, heq, hstrict⟩ := ih p
      refine ⟨mx :: pre2, post2, ?_, ?_⟩
      · simp only [selectLargest, if_pos hc]
        rw [List.cons_append, ← heq]
      · intro q hq
        simp only [selectLargest, if_pos hc]
        rcases List.mem_cons.mp hq with rfl | hq2
        · exact lt_of_lt_of_le hc (selectLargest_max A rest p p (List.mem_cons_self _ _))
        · exact hstrict q hq2
    · obtain ⟨pre2, post2, heq, hstrict⟩ := ih mx
      cases pre2 with
      | nil =>
        simp only [List.nil_append] at heq
        refine ⟨[], p :: rest, ?_, fun q hq => absurd hq (List.not_mem_nil q)⟩
        simp only [selectLargest, if_neg hc, List.nil_append]
        rw [← (List.cons.injEq .. ).mp heq |>.1]
      | cons q0 pre3 =>
        have heq2 := (List.cons.injEq .. ).mp (by simpa using heq)
        refine ⟨mx :: p :: pre3, post2, ?_, ?_⟩
        · simp only [selectLargest, if_neg hc]
          rw [List.cons_append, List.cons_append]
          rw [← heq2.2]
        · intro q hq
          simp only [selectLargest, if_neg hc]
          rcases List.mem_cons.mp hq with rfl | hq2
          · have := hstrict q0 (List.mem_cons_self _ _)
            rw [← heq2.1] at this
            exact this
          · rcases List.mem_cons.mp hq2 with rfl | hq3
            · have hmx := hstrict q0 (List.mem_cons_self _ _)
              rw [← heq2.1] at hmx
              exact lt_of_le_of_lt (le_of_not_lt hc) hmx
            · exact hstrict q (List.mem_cons_of_mem q0 hq3)

/-- C5: multi-part trim resolution — when subtracting an existing polygon
yields a `MultiPolygon`, the loop continues with exactly the part of largest
area, ties broken in favor of the first-encountered part (every part before
the selected one has strictly smaller area), and all other parts are
discarded. -/
theorem c5_multipart_largest_selected (env : GeoEnv) (cur ep x d : TFeature)
    (eg : Geometry) (css : List (List LinearRing)) (p : TFeature)
    (rest : List TFeature) (A : TFeature → ℚ)
    (hconv : geometryToPolygon eg = .ok (some ep))
    (hi : env.intersect cur ep = .ok (some x))
    (hd : env.difference cur ep = .ok (some d))
    (hdg : d.geometry = .multiPolygon css)
    (hmp : mapPolygons css = .ok (p :: rest))
    (hA : ∀ q ∈ p :: rest, env.area q = .ok (A q)) :
    trimStep env cur eg = .ok (some (selectLargest A p rest)) ∧
      selectLargest A p rest ∈ p :: rest ∧
      (∀ q ∈ p :: rest, A q ≤ A (selectLargest A p rest)) ∧
      ∃ pre post, p :: rest = pre ++ selectLargest A p rest :: post ∧
        ∀ q ∈ pre, A q < A (selectLargest A p rest) := by
  refine ⟨?_, selectLargest_mem A rest p, selectLargest_max A rest p,
    selectLargest_first A rest p⟩
  simp only [trimStep, hconv, ok_bind]
  simp only [hi, ok_bind]
  simp only [hd, ok_bind]
  rw [hdg]
  simp only [hmp, ok_bind]
  rw [reduceLargest_eq_selectLargest A rest p hA]
  rfl

/-- C5 witness: on the concrete two-part difference the loop continues with
the larger second part. -/
theorem c5_multipart_largest_selected_witness :
    trimStep multiEnv ⟨wP1.geometry⟩ wP1.geometry
      = .ok (some (selectLargest
          (fun f => if f.geometry = .polygon wPart2 then 5 else 1)
          ⟨.polygon wPart1⟩ [⟨.polygon wPart2⟩])) ∧
      selectLargest (fun f => if f.geometry = .polygon wPart2 then 5 else 1)
          ⟨.polygon wPart1⟩ [⟨.polygon wPart2⟩]
        ∈ [⟨.polygon wPart1⟩, ⟨.polygon wPart2⟩] ∧
      (∀ q ∈ [(⟨.polygon wPart1⟩ : TFeature), ⟨.polygon wPart2⟩],
        (if q.geometry = .polygon wPart2 then (5 : ℚ) else 1) ≤
          (if (selectLargest (fun f => if f.geometry = .polygon wPart2 then 5 else 1)
              ⟨.polygon wPart1⟩ [⟨.polygon wPart2⟩]).geometry = .polygon wPart2
            then (5 : ℚ) else 1)) ∧
      ∃ pre post,
        [(⟨.polygon wPart1⟩ : TFeature), ⟨.polygon wPart2⟩] = pre ++
          selectLargest (fun f => if f.geometry = .polygon wPart2 then 5 else 1)
            ⟨.polygon wPart1⟩ [⟨.polygon wPart2⟩] :: post ∧
        ∀ q ∈ pre, (if q.geometry = .polygon wPart2 then (5 : ℚ) else 1) <
          (if (selectLargest (fun f => if f.geometry = .polygon wPart2 then 5 else 1)
              ⟨.polygon wPart1⟩ [⟨.polygon wPart2⟩]).geometry = .polygon wPart2
            then (5 : ℚ) else 1) :=
  c5_multipart_largest_selected multiEnv ⟨wP1.geometry⟩ ⟨wP1.geometry⟩
    ⟨.polygon []⟩ ⟨.multiPolygon [wPart1, wPart2]⟩ wP1.geometry
    [wPart1, wPart2] ⟨.polygon wPart1⟩ [⟨.polygon wPart2⟩]
    (fun f => if f.geometry = .polygon wPart2 then 5 else 1)
    (by decide) (by decide) (by decide) (by decide) (by decide) (by decide)

/-- C6: capacity gate — with no draw in progress, starting a polygon draw is
refused exactly when the count of ALL committed area-type features (polygon,
rectangle and circle share the polygon bucket) has reached the polygon
maximum, while rectangle, circle and linestring draws are gated only on the
count of committed features of their own type; a refusal changes neither the
store (mode included) nor the session refs, and below the maximum the draw
starts. -/
theorem c6_capacity_gate (env : GeoEnv) (newId : String) (s : StoreState)
    (r : SessionRefs) (p : LatLng)
    (hnd : s.drawingState.isDrawing = false) :
    (s.drawingState.mode = some .polygon →
      (s.maxShapes.polygon ≤
          (s.features.filter fun f => isPolygonType f.type).length →
        handleMapClick env newId s r p = .ok (s, r, some .maxPolygons)) ∧
      ((s.features.filter fun f => isPolygonType f.type).length <
          s.maxShapes.polygon →
        handleMapClick env newId s r p = .ok (setIsDrawing s true,
          { r with polygonPoints := [p], currentShape := some .polygon },
          none))) ∧
    (s.drawingState.mode = some .rectangle →
      (s.maxShapes.rectangle ≤
          (s.features.filter fun f => f.type == .rectangle).length →
        handleMapClick env newId s r p = .ok (s, r, some .maxRectangles)) ∧
      ((s.features.filter fun f => f.type == .rectangle).length <
          s.maxShapes.rectangle →
        handleMapClick env newId s r p = .ok (setIsDrawing s true,
          { r with startPoint := some p,
                   currentShape := some (.rectangle (latLngBounds p p)) },
          none))) ∧
    (s.drawingState.mode = some .circle →
      (s.maxShapes.circle ≤
          (s.features.filter fun f => f.type == .circle).length →
        handleMapClick env newId s r p = .ok (s, r, some .maxCircles)) ∧
      ((s.features.filter fun f => f.type == .circle).length <
          s.maxShapes.circle →
        handleMapClick env newId s r p = .ok (setIsDrawing s true,
          { r with startPoint := some p,
                   currentShape := some (.circle p 0) }, none))) ∧
    (s.drawingState.mode = some .linestring →
      (s.maxShapes.linestring ≤
          (s.features.filter fun f => f.type == .linestring).length →
        handleMapClick env newId s r p = .ok (s, r, some .maxLineStrings)) ∧
      ((s.features.filter fun f => f.type == .linestring).length <
          s.maxShapes.linestring →
        handleMapClick env newId s r p = .ok (setIsDrawing s true,
          { r with polygonPoints := [p], currentShape := some .polyline },
          none))) := by
  refine ⟨fun hm => ⟨fun hcnt => ?_, fun hcnt => ?_⟩,
    fun hm => ⟨fun hcnt => ?_, fun hcnt => ?_⟩,
    fun hm => ⟨fun hcnt => ?_, fun hcnt => ?_⟩,
    fun hm => ⟨fun hcnt => ?_, fun hcnt => ?_⟩⟩
  · simp only [handleMapClick, hm, hnd]
    simp only [handlePolygonClick, Bool.not_false]
    rw [if_pos trivial, if_pos hcnt]
    rfl
  · simp only [handleMapClick, hm, hnd]
    simp only [handlePolygonClick, Bool.not_false]
    rw [if_pos trivial, if_neg (Nat.not_le.mpr hcnt)]
    rfl
  · simp only [handleMapClick, hm, hnd]
    simp only [handleRectangleClick]
    rw [if_neg Bool.false_ne_true, if_pos hcnt]
    rfl
  · simp only [handleMapClick, hm, hnd]
    simp only [handleRectangleClick]
    rw [if_neg Bool.false_ne_true, if_neg (Nat.not_le.mpr hcnt)]
    rfl
  · simp only [handleMapClick, hm, hnd]
    simp only [handleCircleClick]
    rw [if_neg Bool.false_ne_true, if_pos hcnt]
    rfl
  · simp only [handleMapClick, hm, hnd]
    simp only [handleCircleClick]
    rw [if_neg Bool.false_ne_true, if_neg (Nat.not_le.mpr hcnt)]
    rfl
  · simp only [handleMapClick, hm, hnd]
    simp only [handleLineStringClick, Bool.not_false]
    rw [if_pos trivial, if_pos hcnt]
    rfl
  · simp only [handleMapClick, hm, hnd]
    simp only [handleLineStringClick, Bool.not_false]
    rw [if_pos trivial, if_neg (Nat.not_le.mpr hcnt)]
    rfl

/-- C6 witness: one committed circle exhausts a polygon limit of 1 (shared
bucket), while a committed rectangle does not count against the circle
limit. -/
theorem c6_capacity_gate_witness :
    handleMapClick trivEnv "w6"
        ⟨[wC], ⟨some FeatureType.polygon, false⟩, ⟨1, 5, 5, 20⟩⟩ emptyRefs
        ⟨2, 2⟩
      = .ok (⟨[wC], ⟨some FeatureType.polygon, false⟩, ⟨1, 5, 5, 20⟩⟩,
        emptyRefs, some Alert.maxPolygons) ∧
    handleMapClick trivEnv "w6b"
        ⟨[wRect], ⟨some FeatureType.circle, false⟩, ⟨1, 1, 1, 1⟩⟩ emptyRefs
        ⟨2, 2⟩
      = .ok (setIsDrawing
          ⟨[wRect], ⟨some FeatureType.circle, false⟩, ⟨1, 1, 1, 1⟩⟩ true,
        { emptyRefs with startPoint := some ⟨2, 2⟩,
                         currentShape := some (.circle ⟨2, 2⟩ 0) }, none) := by
  constructor
  · exact ((c6_capacity_gate trivEnv "w6"
      ⟨[wC], ⟨some FeatureType.polygon, false⟩, ⟨1, 5, 5, 20⟩⟩ emptyRefs
      ⟨2, 2⟩ rfl).1 rfl).1 (by decide)
  · exact ((c6_capacity_gate trivEnv "w6b"
      ⟨[wRect], ⟨some FeatureType.circle, false⟩, ⟨1, 1, 1, 1⟩⟩ emptyRefs
      ⟨2, 2⟩ rfl).2.2.1 rfl).2 (by decide)

/-- C8 counterexample: the claim requires at least 3 *distinct* vertices in
every committed polygon ring, but clicking the same point three times and
double-clicking commits a polygon whose closed ring repeats a single point —
1 distinct vertex. -/
theorem c8_distinct_vertices_counterexample :
    Reach trivEnv
      ⟨[⟨"g1", .polygon, .polygon [[(0, 0), (0, 0), (0, 0), (0, 0)]],
          "#3b82f6"⟩],
        ⟨some FeatureType.polygon, false⟩, MAX_SHAPES_CONFIG⟩
      ⟨none, none, []⟩ ∧
    isPolygonType FeatureType.polygon = true ∧
    ([((0 : ℚ), (0 : ℚ)), (0, 0), (0, 0), (0, 0)] : LinearRing).dedup.length
      = 1 := by
  refine ⟨?_, rfl, by decide⟩
  have h0 : Reach trivEnv initialStore emptyRefs := Reach.init
  have h1 : Reach trivEnv
      ⟨[], ⟨some FeatureType.polygon, false⟩, MAX_SHAPES_CONFIG⟩ emptyRefs :=
    Reach.modeChange (some FeatureType.polygon) h0
  have h2 : Reach trivEnv
      ⟨[], ⟨some FeatureType.polygon, true⟩, MAX_SHAPES_CONFIG⟩
      ⟨some Layer.polygon, none, [⟨0, 0⟩]⟩ :=
    Reach.click "g1" ⟨0, 0⟩ h1 (show handleMapClick trivEnv "g1"
      ⟨[], ⟨some FeatureType.polygon, false⟩, MAX_SHAPES_CONFIG⟩ emptyRefs ⟨0, 0⟩
      = .ok (⟨[], ⟨some FeatureType.polygon, true⟩, MAX_SHAPES_CONFIG⟩,
        ⟨some Layer.polygon, none, [⟨0, 0⟩]⟩, none) from by decide)
  have h3 : Reach trivEnv
      ⟨[], ⟨some FeatureType.polygon, true⟩, MAX_SHAPES_CONFIG⟩
      ⟨some Layer.polygon, none, [⟨0, 0⟩, ⟨0, 0⟩]⟩ :=
    Reach.click "g1" ⟨0, 0⟩ h2 (show handleMapClick trivEnv "g1"
      ⟨[], ⟨some FeatureType.polygon, true⟩, MAX_SHAPES_CONFIG⟩
      ⟨some Layer.polygon, none, [⟨0, 0⟩]⟩ ⟨0, 0⟩
      = .ok (⟨[], ⟨some FeatureType.polygon, true⟩, MAX_SHAPES_CONFIG⟩,
        ⟨some Layer.polygon, none, [⟨0, 0⟩, ⟨0, 0⟩]⟩, none) from by decide)
  have h4 : Reach trivEnv
      ⟨[], ⟨some FeatureType.polygon, true⟩, MAX_SHAPES_CONFIG⟩
      ⟨some Layer.polygon, none, [⟨0, 0⟩, ⟨0, 0⟩, ⟨0, 0⟩]⟩ :=
    Reach.click "g1" ⟨0, 0⟩ h3 (show handleMapClick trivEnv "g1"
      ⟨[], ⟨some FeatureType.polygon, true⟩, MAX_SHAPES_CONFIG⟩
      ⟨some Layer.polygon, none, [⟨0, 0⟩, ⟨0, 0⟩]⟩ ⟨0, 0⟩
      = .ok (⟨[], ⟨some FeatureType.polygon, true⟩, MAX_SHAPES_CONFIG⟩,
        ⟨some Layer.polygon, none, [⟨0, 0⟩, ⟨0, 0⟩, ⟨0, 0⟩]⟩, none)
      from by decide)
  exact Reach.dblclick "g1" h4 (show handleMapDoubleClick trivEnv "g1"
    ⟨[], ⟨some FeatureType.polygon, true⟩, MAX_SHAPES_CONFIG⟩
    ⟨some Layer.polygon, none, [⟨0, 0⟩, ⟨0, 0⟩, ⟨0, 0⟩]⟩
    = .ok (⟨[⟨"g1", .polygon, .polygon [[(0, 0), (0, 0), (0, 0), (0, 0)]],
        "#3b82f6"⟩], ⟨some FeatureType.polygon, false⟩, MAX_SHAPES_CONFIG⟩,
      ⟨none, none, []⟩, none) from by decide)

/-- C8 (amended): in every reachable state, every committed polygon-type
feature stores a `Polygon` whose rings are all closed (first position equals
last) with at least 4 positions (at least 3 vertex slots before the closing
repeat — the vertices need not be distinct), and every committed linestring
feature stores a line string with at least 2 points. -/
theorem c8_committed_geometry_invariant {env : GeoEnv} (gs : GeomSound env)
    {s : StoreState} {r : SessionRefs} (hreach : Reach env s r)
    (f : Feature) (hf : f ∈ s.features) :
    (isPolygonType f.type = true → ∃ css, f.geometry = .polygon css ∧
      ∀ ring ∈ css, 4 ≤ ring.length ∧ ring.head? = ring.getLast?) ∧
    (f.type = .linestring →
      ∃ ps, f.geometry = .lineString ps ∧ 2 ≤ ps.length) := by
  obtain ⟨hwf, -, -⟩ := reach_StoreInv gs hreach
  obtain ⟨hpoly, hline⟩ := hwf f hf
  refine ⟨fun ht => ?_, hline⟩
  obtain ⟨css, heq, hok⟩ := hpoly ht
  refine ⟨css, heq, fun ring hring => ?_⟩
  have hv : ringValid ring = true := by
    have := List.all_eq_true.mp hok
    simpa using this ring hring
  rw [ringValid, Bool.and_eq_true] at hv
  exact ⟨by simpa using hv.1, by simpa using hv.2⟩

/-- C8 witness: the first committed triangle of the witness run has a closed
4-position ring, and the invariant instantiates to it. -/
theorem c8_committed_geometry_invariant_witness :
    (isPolygonType wP1.type = true → ∃ css, wP1.geometry = .polygon css ∧
      ∀ ring ∈ css, 4 ≤ ring.length ∧ ring.head? = ring.getLast?) ∧
    (wP1.type = .linestring →
      ∃ ps, wP1.geometry = .lineString ps ∧ 2 ≤ ps.length) :=
  c8_committed_geometry_invariant trivSound wReach wP1 (by decide)

end MapEditor
